import Mathlib

/-!
Verification of the git-metrics history-ingestion pipeline and metric
computators, shallowly embedded from the Python sources
(`src/git_metrics/core/python_git.py`, `src/git_metrics/core/analyzer.py`,
`src/git_metrics/metrics/*.py`, `src/git_metrics/plugins/manager.py`).

Conventions of the embedding:
* Python `int` is modelled by `Nat`/`Int` (repository counters are never
  negative), Python `float` arithmetic by exact rationals `ℚ`.
* Python dicts keyed by strings are modelled by association lists
  `List (key × value)` in insertion order; `dict[k]` access is `List.lookup`.
* `math.log2` is not rational, so entropy computations are parameterised by
  an arbitrary function `log2 : ℚ → ℚ` standing for the float logarithm.
* A Python function that may raise is modelled with `Option` (`none` = raise).
-/

namespace GitMetrics

/-! ## Data model (§3 of the design; dict shapes from `python_git.py`) -/

/-- One entry of a commit's `files` list, as built by
`GitPythonCollector._parse_commits_chunk`. -/
structure FileChange where
  filename : String
  status : String
  additions : Nat
  deletions : Nat
deriving DecidableEq, Repr

/-- One parsed commit dict, as built by
`GitPythonCollector._parse_commits_chunk`. -/
structure Commit where
  hash : String
  author : String
  date : String
  message : String
  files : List FileChange
deriving DecidableEq, Repr

/-- One value of the mapping returned by
`GitPythonCollector.get_current_changes`.  `error = true` marks the
zero-filled entry written by the `except` branch. -/
structure CurrentChange where
  additions : Nat
  deletions : Nat
  total : Nat
  error : Bool
deriving DecidableEq, Repr

/-! ## Character-level models of the Python string primitives

Lean's built-in `String` functions are opaque to the kernel, so the Python
string operations the collector uses are modelled executably over
`List Char` (a Lean string literal converts via `String.toList`). -/

/-- Model of Python `str.split(sep)` for a one-character separator: split at
every occurrence, keeping empty fields (`"".split(s) == [""]`). -/
def splitChar (sep : Char) : List Char → List (List Char)
  | [] => [[]]
  | c :: rest =>
      let r := splitChar sep rest
      if c = sep then [] :: r
      else
        match r with
        | [] => [[c]]
        | h :: t => (c :: h) :: t

/-- Model of Python `str.strip()`: drop whitespace from both ends. -/
def trimChars (cs : List Char) : List Char :=
  ((cs.dropWhile Char.isWhitespace).reverse.dropWhile Char.isWhitespace).reverse

/-- Split at every character satisfying `p`, keeping empty fields. -/
def splitPred (p : Char → Bool) : List Char → List (List Char)
  | [] => [[]]
  | c :: rest =>
      let r := splitPred p rest
      if p c then [] :: r
      else
        match r with
        | [] => [[c]]
        | h :: t => (c :: h) :: t

/-- Model of Python `str.split()` (no argument): split on whitespace runs
and drop the empty fields. -/
def splitWhitespace (cs : List Char) : List (List Char) :=
  (splitPred Char.isWhitespace cs).filter (fun l => !l.isEmpty)

/-- Model of Python `int(token)` on the digit strings occurring in diff-stat
output: all-digit, nonempty token; anything else raises (`none`). -/
def parseNatDigits (cs : List Char) : Option Nat :=
  if cs ≠ [] ∧ cs.all Char.isDigit then
    some (cs.foldl (fun n c => 10 * n + (c.toNat - 48)) 0)
  else none

/-- Model of Python `str.startswith(p)`. -/
def strStartsWith (s p : String) : Bool :=
  p.toList.isPrefixOf s.toList

/-- Index of the first occurrence of `target` (Python `list.index`, total
because the callers guard with a membership test). -/
def firstIndexOf (xs : List (List Char)) (target : List Char) : Nat :=
  match xs with
  | [] => 0
  | x :: rest => if x = target then 0 else firstIndexOf rest target + 1

/-! ## History parsing (`GitPythonCollector._parse_commits_chunk`) -/

/-- Additions synthesized from a name-status code
(`if status.startswith("A") ... elif status.startswith("D") ... else`). -/
def statusAdditions (status : String) : Nat :=
  if strStartsWith status "A" then 1
  else if strStartsWith status "D" then 0
  else 1

/-- Deletions synthesized from a name-status code. -/
def statusDeletions (status : String) : Nat :=
  if strStartsWith status "A" then 0
  else if strStartsWith status "D" then 1
  else 1

/-- Parsing of one line of the name-status block: strip, skip blanks, split
on TAB, require at least two fields. -/
def parseFileLine (line : List Char) : Option FileChange :=
  let l := trimChars line
  if l.isEmpty then none
  else
    let parts := splitChar '\t' l
    if parts.length ≥ 2 then
      let status := (parts.getD 0 []).asString
      let filename := (parts.getD 1 []).asString
      some { filename := filename, status := status,
             additions := statusAdditions status,
             deletions := statusDeletions status }
    else none

/-- Parsing of one raw commit chunk (the text between two `COMMIT_START`
sentinels).  Mirrors the loop body of `_parse_commits_chunk`: the chunk is
dropped when the `COMMIT_END` sentinel is missing or fewer than four header
lines exist; file lines are the lines strictly between index 4 and the
index of the first `COMMIT_END`.  (`lines` is never empty after a split, so
the `if not lines` guard of the source is vacuous.) -/
def parseOneCommit (commitData : String) : Option Commit :=
  let lines := splitChar '\n' commitData.toList
  let sentinel := "COMMIT_END".toList
  if sentinel ∈ lines then
    let endIndex := firstIndexOf lines sentinel
    if lines.length ≥ 4 then
      some { hash := (lines.getD 0 []).asString
             author := (lines.getD 1 []).asString
             date := (lines.getD 2 []).asString
             message := (lines.getD 3 []).asString
             files := ((lines.take endIndex).drop 4).filterMap parseFileLine }
    else none
  else none

/-- `GitPythonCollector._parse_commits_chunk`: parse every chunk of a slice,
dropping malformed ones. -/
def parseCommitsChunk (commitsChunk : List String) : List Commit :=
  commitsChunk.filterMap parseOneCommit

/-! ## Slicing (`GitPythonCollector._split_list`) -/

/-- The chunk-producing loop of `_split_list`: `k` iterations remain, the
first `rem` of them take `avg + 1` elements, the rest take `avg`. -/
def splitGo (l : List α) (avg rem : Nat) : Nat → List (List α)
  | 0 => []
  | k + 1 =>
      let size := if rem > 0 then avg + 1 else avg
      l.take size :: splitGo (l.drop size) avg (rem - 1) k

/-- `GitPythonCollector._split_list lst num_chunks`:
`avg = len // num_chunks`, `remainder = len % num_chunks`. -/
def splitList (l : List α) (numChunks : Nat) : List (List α) :=
  splitGo l (l.length / numChunks) (l.length % numChunks) numChunks

/-- Deduplication keeping first occurrences, the insertion order of a Python
dict built by repeated `dict[k] = ...` / `defaultdict` updates. -/
def firstOccDedup [DecidableEq α] (l : List α) : List α := go l []
where go : List α → List α → List α
  | [], _ => []
  | x :: xs, seen => if x ∈ seen then go xs seen else x :: go xs (x :: seen)

/-! ## Change coupling (`ChangeCouplingMetric.calculate`) -/

/-- The filenames of a commit's file list. -/
def filenamesOf (c : Commit) : List String := c.files.map FileChange.filename

/-- `file_changes[f]`: one increment per occurrence of `f` in any commit's
file list. -/
def fileChangesCount (commits : List Commit) (f : String) : Nat :=
  ((commits.map filenamesOf).flatten).count f

/-- `commit_files`: the per-commit filename lists, nonempty ones only
(`if files_in_commit:`). -/
def commitFilesOf (commits : List Commit) : List (List String) :=
  (commits.map filenamesOf).filter (fun l => !l.isEmpty)

/-- `itertools.combinations(files, 2)`: the ordered pairs `(files[i],
files[j])` with `i < j`, in lexicographic index order. -/
def listPairs : List α → List (α × α)
  | [] => []
  | x :: xs => xs.map (fun y => (x, y)) ++ listPairs xs

/-- `tuple(sorted([a, b]))`. -/
def sortPair (a b : String) : String × String :=
  if a ≤ b then (a, b) else (b, a)

/-- The sorted pairs a single commit's file list feeds into the
`file_coupling` counter (`if file1 != file2: file_coupling[pair] += 1`). -/
def commitPairOccs (l : List String) : List (String × String) :=
  ((listPairs l).filter (fun q => decide (q.1 ≠ q.2))).map
    (fun q => sortPair q.1 q.2)

/-- All counter increments across the commit set, in program order. -/
def allPairOccs (commits : List Commit) : List (String × String) :=
  ((commitFilesOf commits).map commitPairOccs).flatten

/-- `file_coupling[p]`. -/
def pairCount (commits : List Commit) (p : String × String) : Nat :=
  (allPairOccs commits).count p

/-- One value of the `normalized_coupling` dict. -/
structure CouplingRec where
  count : Nat
  jaccard : ℚ
  file1Changes : Nat
  file2Changes : Nat
deriving DecidableEq, Repr

/-- `count / union if union > 0 else 0` (float division modelled on `ℚ`). -/
def jaccardOf (count : Nat) (union : Int) : ℚ :=
  if 0 < union then (count : ℚ) / (union : ℚ) else 0

/-- The `normalized_coupling` entry for pair `p`. -/
def mkCouplingRec (commits : List Commit) (p : String × String) : CouplingRec :=
  let cnt := pairCount commits p
  let f1 := fileChangesCount commits p.1
  let f2 := fileChangesCount commits p.2
  { count := cnt
    jaccard := jaccardOf cnt ((f1 : Int) + (f2 : Int) - (cnt : Int))
    file1Changes := f1
    file2Changes := f2 }

/-- `normalized_coupling`: one record per distinct counter key, keys in
first-insertion order. -/
def normalizedCoupling (commits : List Commit) :
    List ((String × String) × CouplingRec) :=
  (firstOccDedup (allPairOccs commits)).map (fun p => (p, mkCouplingRec commits p))

/-- The result dict of `ChangeCouplingMetric.calculate` (the `networkx`
graph artifact is omitted: it is exported for external traversal only and
none of the claims concern it). -/
structure CouplingResult where
  coupling : List ((String × String) × CouplingRec)
  fileChanges : List (String × Nat)
deriving DecidableEq, Repr

/-- `ChangeCouplingMetric.calculate`: build the pair table, Jaccard-normalize,
sort by descending jaccard (`sorted(..., key=..., reverse=True)`). -/
def changeCouplingCalculate (commits : List Commit) : CouplingResult :=
  { coupling := List.insertionSort (fun x y => y.2.jaccard ≤ x.2.jaccard)
      (normalizedCoupling commits)
    fileChanges := (firstOccDedup ((commits.map filenamesOf).flatten)).map
      (fun f => (f, fileChangesCount commits f)) }

/-- Lookup of an unordered pair in the coupling table, via the sorted key
under which the table stores every pair. -/
def couplingLookup (commits : List Commit) (f1 f2 : String) :
    Option CouplingRec :=
  (changeCouplingCalculate commits).coupling.lookup (sortPair f1 f2)

/-! ## Hotspot analysis (`HotspotAnalysisMetric.calculate`) -/

/-- `file_churn[f]`: summed `additions + deletions` over every occurrence of
`f` in any commit's file list. -/
def fileChurn (commits : List Commit) (f : String) : Nat :=
  ((((commits.map Commit.files).flatten).filter
      (fun fc => decide (fc.filename = f))).map
    (fun fc => fc.additions + fc.deletions)).sum

/-- One value of the `hotspots` dict. -/
structure HotspotRec where
  changes : Nat
  churn : Nat
  avgChurn : ℚ
  score : ℚ
deriving DecidableEq, Repr

/-- The `hotspots` entry for file `f` (`avg_churn = churn / changes if
changes > 0 else 0`, `hotspot_score = changes * avg_churn`). -/
def mkHotspotRec (commits : List Commit) (f : String) : HotspotRec :=
  let changes := fileChangesCount commits f
  let churn := fileChurn commits f
  let avgChurn : ℚ := if 0 < changes then (churn : ℚ) / (changes : ℚ) else 0
  { changes := changes
    churn := churn
    avgChurn := avgChurn
    score := (changes : ℚ) * avgChurn }

/-- `HotspotAnalysisMetric.calculate`: one record per file that appears in
some commit (the `if filename in file_churn` guard of the source is always
true since both dicts share keys), sorted by descending score. -/
def hotspotCalculate (commits : List Commit) : List (String × HotspotRec) :=
  List.insertionSort (fun x y => y.2.score ≤ x.2.score)
    ((firstOccDedup ((commits.map filenamesOf).flatten)).map
      (fun f => (f, mkHotspotRec commits f)))

/-! ## Developer ownership (`DeveloperOwnershipMetric`) -/

/-- `file_authors[f]`: the distinct authors of commits touching `f`
(a Python set; modelled in first-contact order, which no claim relies on
since set iteration order is unspecified). -/
def fileAuthorsList (commits : List Commit) (f : String) : List String :=
  firstOccDedup
    ((commits.filter (fun c => decide (f ∈ filenamesOf c))).map Commit.author)

/-- `author_changes[f][a]`: occurrences of `f` in commits authored by `a`. -/
def authorChangeCount (commits : List Commit) (f a : String) : Nat :=
  (((commits.filter (fun c => decide (c.author = a))).map filenamesOf).flatten).count f

/-- One value of the `file_ownership` dict. -/
structure OwnershipRec where
  dominantAuthor : String
  ownershipRatio : ℚ
  contributorCount : Nat
  authorChanges : List (String × Nat)
  totalChanges : Nat
deriving DecidableEq, Repr

/-- The `file_ownership` entry for file `f`: `dominant_author` is an author
with the maximal change count (`max(author_counts.items(), key=...)`), and
`ownership_ratio` its count over the total. -/
def mkOwnershipRec (commits : List Commit) (f : String) : OwnershipRec :=
  let authors := fileAuthorsList commits f
  let counts := authors.map (fun a => (a, authorChangeCount commits f a))
  let total := (counts.map Prod.snd).sum
  let maxCount := (counts.map Prod.snd).foldr max 0
  { dominantAuthor :=
      ((counts.filter (fun x => decide (x.2 = maxCount))).map Prod.fst).getD 0 ""
    ownershipRatio := (maxCount : ℚ) / (total : ℚ)
    contributorCount := authors.length
    authorChanges := counts
    totalChanges := total }

/-- The guards of the `calculate` loop: a file is skipped when its author
set is empty or its total change count is zero. -/
def ownershipRecOf (commits : List Commit) (f : String) : Option OwnershipRec :=
  if (fileAuthorsList commits f).isEmpty then none
  else
    let r := mkOwnershipRec commits f
    if r.totalChanges = 0 then none else some r

/-- `DeveloperOwnershipMetric.calculate`: per-file ownership records sorted
by descending ownership ratio. -/
def developerOwnershipCalculate (commits : List Commit) :
    List (String × OwnershipRec) :=
  List.insertionSort (fun x y => y.2.ownershipRatio ≤ x.2.ownershipRatio)
    ((firstOccDedup ((commits.map filenamesOf).flatten)).filterMap
      (fun f => (ownershipRecOf commits f).map (fun r => (f, r))))

/-- `DeveloperOwnershipMetric._categorize_ownership` (float thresholds
modelled as exact rationals). -/
def categorizeOwnership (ratio : ℚ) (contributors : Nat) : String :=
  if 8/10 < ratio ∧ contributors = 1 then "exclusive"
  else if 8/10 < ratio then "strong"
  else if 1/2 < ratio then "moderate"
  else if 3/10 < ratio then "shared"
  else "dispersed"

/-- The `metrics` sub-dict of one impact entry. -/
structure OwnershipImpactMetrics where
  dominantAuthor : String
  ownershipRatio : ℚ
  contributorCount : Nat
  totalChanges : Nat
  topContributors : List (String × Nat)
  ownershipCategory : String
deriving DecidableEq, Repr

/-- One impact entry: `new_file` marks files absent from the metric result
(their `metrics` dict stays empty, modelled as `none`). -/
structure OwnershipImpactEntry where
  newFile : Bool
  metrics : Option OwnershipImpactMetrics
deriving DecidableEq, Repr

/-- `DeveloperOwnershipMetric.analyze_impact`. -/
def developerOwnershipImpact (currentChanges : List (String × CurrentChange))
    (metricResult : List (String × OwnershipRec)) :
    List (String × OwnershipImpactEntry) :=
  currentChanges.map (fun fc =>
    match metricResult.lookup fc.1 with
    | none => (fc.1, { newFile := true, metrics := none })
    | some od =>
        (fc.1, { newFile := false
                 metrics := some {
                   dominantAuthor := od.dominantAuthor
                   ownershipRatio := od.ownershipRatio
                   contributorCount := od.contributorCount
                   totalChanges := od.totalChanges
                   topContributors :=
                     (List.insertionSort (fun x y => y.2 ≤ x.2)
                       od.authorChanges).take 3
                   ownershipCategory :=
                     categorizeOwnership od.ownershipRatio od.contributorCount } }))

/-! ## Plugin manager (`PluginManager`) -/

/-- A metric computator as the manager sees it: `calculate` and
`analyze_impact`, each possibly raising (`none` models an exception).
Result and impact shapes are computator-specific and treated opaquely by
the manager, hence the type parameters. -/
structure MPlugin (ρ ι : Type) where
  calculate : List Commit → Option ρ
  analyzeImpact : List (String × CurrentChange) → ρ → Option ι

/-- `PluginManager.calculate_metrics`: every active plugin gets an entry;
an exception stores `None` (`results[plugin_id] = None`). -/
def calculateMetrics (plugins : List (String × MPlugin ρ ι))
    (commits : List Commit) : List (String × Option ρ) :=
  plugins.map (fun p => (p.1, p.2.calculate commits))

/-- The impact a single plugin contributes: present only when its metric
result exists, is non-`None`, and `analyze_impact` does not raise. -/
def impactOf (changes : List (String × CurrentChange))
    (metricResults : List (String × Option ρ)) (p : String × MPlugin ρ ι) :
    Option ι :=
  match metricResults.lookup p.1 with
  | some (some r) => p.2.analyzeImpact changes r
  | _ => none

/-- `PluginManager.analyze_impact`. -/
def analyzeImpactAll (plugins : List (String × MPlugin ρ ι))
    (changes : List (String × CurrentChange))
    (metricResults : List (String × Option ρ)) : List (String × ι) :=
  plugins.filterMap
    (fun p => (impactOf changes metricResults p).map (fun i => (p.1, i)))

/-- A computator that computes the commit count and increments it on
impact. -/
def okPlugin : MPlugin Nat Nat :=
  { calculate := fun commits => some commits.length
    analyzeImpact := fun _ r => some (r + 1) }

/-- A computator whose `calculate` raises. -/
def badPlugin : MPlugin Nat Nat :=
  { calculate := fun _ => none
    analyzeImpact := fun _ r => some r }

/-! ## Collector configuration and cache key
(`GitPythonCollector.__init__/get_cache_key`, `GitAnalyzer._create_collector`) -/

/-- The state `GitPythonCollector.__init__` keeps: repository path (taken
absolute, as `get_cache_key` immediately does), and the two bounds.  The
constructor has no file-pattern parameter. -/
structure CollectorConfig where
  repoAbsPath : String
  maxCommits : Option Nat
  sinceDays : Option Nat
deriving DecidableEq, Repr

/-- `GitPythonCollector.get_cache_key` builds
`f"{repo_abs_path}_{max_commits_str}_{since_days_str}"` and returns its MD5
hex digest.  The digest is a fixed deterministic function of this string,
so key equality is decided by this pre-digest string. -/
def cacheKeyString (c : CollectorConfig) : String :=
  c.repoAbsPath ++ "_" ++
    (match c.maxCommits with | none => "all" | some n => toString n) ++ "_" ++
    (match c.sinceDays with | none => "all" | some n => toString n)

/-- `GitAnalyzer` configuration: additionally carries the file-pattern
filter. -/
structure AnalyzerConfig where
  repoAbsPath : String
  maxCommits : Option Nat
  sinceDays : Option Nat
  filePatterns : List String
deriving DecidableEq, Repr

/-- `GitAnalyzer._create_collector` on the Python path: the collector state
consists of the repo path and the two bounds; `GitPythonCollector.__init__`
accepts no file-pattern parameter, so the analyzer's filter never reaches
the collector or its cache key. -/
def createCollector (a : AnalyzerConfig) : CollectorConfig :=
  { repoAbsPath := a.repoAbsPath
    maxCommits := a.maxCommits
    sinceDays := a.sinceDays }

/-! ## Cache and `collect_history` -/

/-- One on-disk cache entry: its age in seconds (now minus mtime) and its
deserialized contents (`none` models `json.JSONDecodeError`/`IOError`,
i.e. a corrupted entry). -/
structure CacheEntry where
  age : Nat
  data : Option (List Commit)
deriving DecidableEq, Repr

/-- The collector's environment: its configuration, the cache entry stored
under its key (if any), the raw log stream of the repository — given as
the chunk list `data.split("COMMIT_START\n")[1:]` that
`parse_commit_data` produces from it — and `os.cpu_count()`. -/
structure CollectorEnv where
  config : CollectorConfig
  cache : Option CacheEntry
  gitChunks : List String
  ncpu : Nat

/-- `GitPythonCollector.load_from_cache`: a fresh (< 86400 s) entry that
deserializes yields its commits; a stale, missing or corrupted entry yields
`None`. -/
def loadFromCache (env : CollectorEnv) : Option (List Commit) :=
  match env.cache with
  | none => none
  | some e => if e.age < 86400 then e.data else none

/-- `GitPythonCollector.parse_commit_data`: split into per-worker slices
and concatenate the per-slice parses (the `ProcessPoolExecutor` fan-out /
fan-in). -/
def parseCommitData (env : CollectorEnv) : List Commit :=
  ((splitList env.gitChunks env.ncpu).map parseCommitsChunk).flatten

/-- The observable outcome of one `collect_history` call: the returned
commits, the environment afterwards (the cache write), and how many VCS
subprocess invocations were issued. -/
structure CollectResult where
  commits : List Commit
  newEnv : CollectorEnv
  subprocessCalls : Nat

/-- `GitPythonCollector.collect_history`: cache hit returns the cached
commits with no subprocess; otherwise one `git log` subprocess runs, the
stream is parsed, and the result is saved to cache (a fresh entry of age
0; `save_to_cache` serialization is modelled as faithful). -/
def collectHistory (env : CollectorEnv) : CollectResult :=
  match loadFromCache env with
  | some cs => { commits := cs, newEnv := env, subprocessCalls := 0 }
  | none =>
      let commits := parseCommitData env
      { commits := commits
        newEnv := { env with cache := some { age := 0, data := some commits } }
        subprocessCalls := 1 }

/-- Let `t` seconds pass: the cache entry ages, nothing else changes (the
repository is unchanged). -/
def ageBy (env : CollectorEnv) (t : Nat) : CollectorEnv :=
  { env with cache := env.cache.map (fun e => { e with age := e.age + t }) }

/-! ## Working-tree diff parsing (`GitPythonCollector.get_current_changes`) -/

/-- Model of Python's `in` on strings: `pat` occurs as a contiguous
substring. -/
def containsPat (pat : List Char) : List Char → Bool
  | [] => pat.isPrefixOf []
  | c :: rest => pat.isPrefixOf (c :: rest) || containsPat pat rest

/-- The effect of one line of `git diff --stat` output on the `changes`
dict: `none` when the line is skipped (blank, summary line, or a `|` split
into other than two parts), an error-flagged zero entry when
`int(stats_parts[0])` raises (the only raising operation inside the `try`;
it runs after `filename` is assigned, so the `except` branch always has
this line's filename in scope), and a parsed entry otherwise. -/
def parseDiffLine (line : String) : Option (String × CurrentChange) :=
  let cs := line.toList
  if (trimChars cs).isEmpty then none
  else if containsPat "file changed".toList cs || containsPat "files changed".toList cs then
    none
  else
    let parts := splitChar '|' cs
    if parts.length = 2 then
      let filename := (trimChars (parts.getD 0 [])).asString
      let statsParts := splitWhitespace (trimChars (parts.getD 1 []))
      match statsParts.head? with
      | none =>
          some (filename, { additions := 0, deletions := 0, total := 0, error := false })
      | some tok =>
          match parseNatDigits tok with
          | none =>
              some (filename, { additions := 0, deletions := 0, total := 0, error := true })
          | some total =>
              let symbols := statsParts.getD 1 []
              let insertions := symbols.count '+'
              let deletions := symbols.count '-'
              if insertions = 0 ∧ deletions = 0 then
                some (filename,
                  { additions := total / 2 + (if total % 2 = 1 then 1 else 0)
                    deletions := total / 2
                    total := total
                    error := false })
              else
                some (filename,
                  { additions := insertions, deletions := deletions,
                    total := total, error := false })
    else none

/-- Python dict assignment `changes[filename] = ...`: replace in place, or
append when the key is new. -/
def upsert (changes : List (String × CurrentChange))
    (e : String × CurrentChange) : List (String × CurrentChange) :=
  if changes.any (fun x => x.1 == e.1) then
    changes.map (fun x => if x.1 == e.1 then (x.1, e.2) else x)
  else changes ++ [e]

/-- One iteration of the `get_current_changes` line loop. -/
def diffStep (acc : List (String × CurrentChange)) (line : String) :
    List (String × CurrentChange) :=
  match parseDiffLine line with
  | none => acc
  | some e => upsert acc e

/-- The line loop of `get_current_changes`. -/
def processDiffLines (lines : List String) : List (String × CurrentChange) :=
  lines.foldl diffStep []

/-- `GitPythonCollector.get_current_changes` applied to the captured
`git diff --stat` output. -/
def getCurrentChanges (diffOutput : String) : List (String × CurrentChange) :=
  processDiffLines ((splitChar '\n' diffOutput.toList).map List.asString)

/-! ## Code churn (`CodeChurnMetric`) -/

/-- `CodeChurnMetric.calculate`: per-file summed churn, sorted descending. -/
def codeChurnCalculate (commits : List Commit) : List (String × Nat) :=
  List.insertionSort (fun x y => y.2 ≤ x.2)
    ((firstOccDedup ((commits.map filenamesOf).flatten)).map
      (fun f => (f, fileChurn commits f)))

/-- `CodeChurnMetric._calculate_risk_level` (float thresholds as exact
rationals). -/
def churnRiskLevel (percentile : ℚ) (current historical : Nat) : String :=
  if 9/10 < percentile then "critical"
  else if 8/10 < percentile then "high"
  else if 6/10 < percentile then "medium"
  else if (historical : ℚ) * (3/10) < (current : ℚ) then "elevated"
  else "low"

/-- The `metrics` sub-dict of one churn impact entry. -/
structure ChurnImpactMetrics where
  churnPercentile : ℚ
  historicalChurn : Nat
  currentChurn : Nat
  riskLevel : String
deriving DecidableEq, Repr

/-- One churn impact entry. -/
structure ChurnImpactEntry where
  newFile : Bool
  metrics : Option ChurnImpactMetrics
deriving DecidableEq, Repr

/-- `CodeChurnMetric.analyze_impact`: percentile = fraction of historical
churns `<=` this file's churn. -/
def codeChurnImpact (currentChanges : List (String × CurrentChange))
    (metricResult : List (String × Nat)) : List (String × ChurnImpactEntry) :=
  currentChanges.map (fun fc =>
    match metricResult.lookup fc.1 with
    | none => (fc.1, { newFile := true, metrics := none })
    | some historicalChurn =>
        let allChurns := metricResult.map Prod.snd
        let percentile :=
          ((allChurns.filter (fun c => decide (c ≤ historicalChurn))).length : ℚ) /
            (allChurns.length : ℚ)
        (fc.1, { newFile := false
                 metrics := some {
                   churnPercentile := percentile
                   historicalChurn := historicalChurn
                   currentChurn := fc.2.total
                   riskLevel := churnRiskLevel percentile fc.2.total historicalChurn } }))

/-! ## Change entropy (`ChangeEntropyMetric`)

`math.log2` is not a rational function; the computations are parameterised
over `log2 : ℚ → ℚ` standing for the float logarithm. -/

/-- The `entropy / max_entropy if max_entropy > 0 else 0` guard. -/
def normalizedEntropy (entropy maxEntropy : ℚ) : ℚ :=
  if 0 < maxEntropy then entropy / maxEntropy else 0

/-- One value of the `file_entropy` dict (its `entropy` field is the
normalized entropy, as stored by the source). -/
structure EntropyRec where
  entropy : ℚ
  contributors : Nat
  totalChanges : Nat
deriving DecidableEq, Repr

/-- The `file_entropy` entry for file `f` (`none` when `total == 0`, the
`continue` guard). -/
def entropyRecOf (log2 : ℚ → ℚ) (commits : List Commit) (f : String) :
    Option EntropyRec :=
  let authors := fileAuthorsList commits f
  let contributions := authors.map (fun a => authorChangeCount commits f a)
  let total := contributions.sum
  if total = 0 then none
  else
    let entropy :=
      -(contributions.map (fun cnt =>
          let p : ℚ := (cnt : ℚ) / (total : ℚ)
          if 0 < p then p * log2 p else 0)).sum
    let authorCount := authors.length
    let maxEntropy := if 0 < authorCount then log2 (authorCount : ℚ) else 0
    some { entropy := normalizedEntropy entropy maxEntropy
           contributors := authorCount
           totalChanges := total }

/-- `ChangeEntropyMetric.calculate`. -/
def changeEntropyCalculate (log2 : ℚ → ℚ) (commits : List Commit) :
    List (String × EntropyRec) :=
  List.insertionSort (fun x y => y.2.entropy ≤ x.2.entropy)
    ((firstOccDedup ((commits.map filenamesOf).flatten)).filterMap
      (fun f => (entropyRecOf log2 commits f).map (fun r => (f, r))))

/-- One entropy impact entry; `insights` holds the tags of the
research-backed insights appended by the source (the prose strings are
rendering, not logic). -/
structure EntropyImpactEntry where
  newFile : Bool
  changeEntropy : Option ℚ
  contributors : Option Nat
  insights : List String
deriving DecidableEq, Repr

/-- `ChangeEntropyMetric.analyze_impact`. -/
def changeEntropyImpact (currentChanges : List (String × CurrentChange))
    (metricResult : List (String × EntropyRec)) :
    List (String × EntropyImpactEntry) :=
  currentChanges.map (fun fc =>
    match metricResult.lookup fc.1 with
    | none =>
        (fc.1, { newFile := true, changeEntropy := none, contributors := none,
                 insights := [] })
    | some ed =>
        (fc.1, { newFile := false
                 changeEntropy := some ed.entropy
                 contributors := some ed.contributors
                 insights :=
                   if 8/10 < ed.entropy ∧ 3 < ed.contributors then
                     ["high-entropy"]
                   else if ed.entropy < 3/10 ∧ 1 < ed.contributors then
                     ["low-entropy"]
                   else [] }))

/-! ## Knowledge distribution (`KnowledgeDistributionMetric`) -/

/-- The distinct authors over the commit set (`author_commit_count` keys). -/
def authorsOf (commits : List Commit) : List String :=
  firstOccDedup (commits.map Commit.author)

/-- `author_commit_count[a]`. -/
def authorCommitCount (commits : List Commit) (a : String) : Nat :=
  (commits.filter (fun c => decide (c.author = a))).length

/-- The distinct files author `a` touched (`author_changes[a].keys()`). -/
def authorFiles (commits : List Commit) (a : String) : List String :=
  firstOccDedup
    (((commits.filter (fun c => decide (c.author = a))).map filenamesOf).flatten)

/-- The distinct files over the commit set (`file_changes.keys()`). -/
def allFilesList (commits : List Commit) : List String :=
  firstOccDedup ((commits.map filenamesOf).flatten)

/-- One value of the knowledge-distribution `file_ownership` dict (the
source recomputes developer ownership with the same loops, keeping three
fields). -/
structure KDFileOwnership where
  dominantAuthor : String
  ownershipRatio : ℚ
  contributorCount : Nat
deriving DecidableEq, Repr

/-- The `file_ownership` entry for `f` with the `continue` guards. -/
def kdOwnershipOf (commits : List Commit) (f : String) : Option KDFileOwnership :=
  if (fileAuthorsList commits f).isEmpty then none
  else if (mkOwnershipRec commits f).totalChanges = 0 then none
  else some { dominantAuthor := (mkOwnershipRec commits f).dominantAuthor
              ownershipRatio := (mkOwnershipRec commits f).ownershipRatio
              contributorCount := (mkOwnershipRec commits f).contributorCount }

/-- The knowledge-distribution `file_ownership` dict. -/
def kdFileOwnershipList (commits : List Commit) : List (String × KDFileOwnership) :=
  (allFilesList commits).filterMap
    (fun f => (kdOwnershipOf commits f).map (fun r => (f, r)))

/-- One value of the `team_knowledge` dict. -/
structure AuthorKnowledge where
  coverage : ℚ
  depth : ℚ
  ownedFiles : Nat
  filesChanged : Nat
  commitCount : Nat
  busFactorContribution : ℚ
deriving DecidableEq, Repr

/-- The `team_knowledge` entry for author `a` (`knowledge_coverage`,
`avg_knowledge_depth` over dominated files, `bus_factor_contribution`). -/
def authorKnowledgeOf (commits : List Commit) (a : String) : AuthorKnowledge :=
  let af := authorFiles commits a
  let allf := allFilesList commits
  let owned := af.filter (fun f =>
    match (kdFileOwnershipList commits).lookup f with
    | some r => r.dominantAuthor == a
    | none => false)
  let depthSum := (owned.map (fun f =>
    match (kdFileOwnershipList commits).lookup f with
    | some r => r.ownershipRatio
    | none => 0)).sum
  { coverage := if allf.isEmpty then 0 else (af.length : ℚ) / (allf.length : ℚ)
    depth := if 0 < owned.length then depthSum / (owned.length : ℚ) else 0
    ownedFiles := owned.length
    filesChanged := af.length
    commitCount := authorCommitCount commits a
    busFactorContribution :=
      if allf.isEmpty then 0 else (owned.length : ℚ) / (allf.length : ℚ) }

/-- The greedy loop of `_calculate_bus_factor`: accumulate contributions in
descending order, counting authors, stopping once the cumulative reaches
0.5. -/
def busFactorGo : List (String × AuthorKnowledge) → ℚ → Nat → Nat
  | [], _, bf => bf
  | x :: rest, cum, bf =>
      if 1/2 ≤ cum + x.2.busFactorContribution then bf + 1
      else busFactorGo rest (cum + x.2.busFactorContribution) (bf + 1)

/-- `KnowledgeDistributionMetric._calculate_bus_factor`. -/
def calculateBusFactor (teamKnowledge : List (String × AuthorKnowledge)) : Nat :=
  busFactorGo
    (List.insertionSort
      (fun x y => y.2.busFactorContribution ≤ x.2.busFactorContribution)
      teamKnowledge) 0 0

/-- `KnowledgeDistributionMetric._calculate_knowledge_redundancy`. -/
def knowledgeRedundancyOf (commits : List Commit) : ℚ :=
  if (allFilesList commits).isEmpty then 0
  else
    (((allFilesList commits).map
        (fun f => (fileAuthorsList commits f).length)).sum : ℚ) /
      ((allFilesList commits).length : ℚ)

/-- The `team_metrics` result dict of
`KnowledgeDistributionMetric.calculate`. -/
structure TeamMetrics where
  busFactor : Nat
  knowledgeRedundancy : ℚ
  authors : List (String × AuthorKnowledge)
  fileOwnership : List (String × KDFileOwnership)
  fileCount : Nat
  authorCount : Nat
deriving DecidableEq, Repr

/-- `KnowledgeDistributionMetric.calculate`. -/
def knowledgeCalculate (commits : List Commit) : TeamMetrics :=
  let sortedKnowledge :=
    List.insertionSort
      (fun x y => y.2.coverage * y.2.depth ≤ x.2.coverage * x.2.depth)
      ((authorsOf commits).map (fun a => (a, authorKnowledgeOf commits a)))
  { busFactor := calculateBusFactor sortedKnowledge
    knowledgeRedundancy := knowledgeRedundancyOf commits
    authors := sortedKnowledge
    fileOwnership := kdFileOwnershipList commits
    fileCount := (allFilesList commits).length
    authorCount := (authorsOf commits).length }

/-- `KnowledgeDistributionMetric._calculate_team_risk_level`. -/
def teamRiskLevel (busFactor : Nat) (redundancy : ℚ) : String :=
  if busFactor ≤ 1 then "critical"
  else if busFactor ≤ 2 then "high"
  else if redundancy < 3/2 then "medium"
  else if busFactor ≤ 3 then "elevated"
  else "low"

/-- `KnowledgeDistributionMetric._calculate_knowledge_risk`. -/
def knowledgeRisk (ratio : ℚ) (contributors : Nat) (depth : ℚ) : String :=
  if 9/10 < ratio ∧ contributors = 1 ∧ 8/10 < depth then "critical"
  else if 8/10 < ratio ∧ contributors ≤ 2 then "high"
  else if contributors < 3 ∨ 7/10 < ratio then "medium"
  else if contributors < 4 then "elevated"
  else "low"

/-- The `team_metrics` part of the knowledge impact. -/
structure KDTeamImpact where
  busFactor : Nat
  knowledgeRedundancy : ℚ
  fileCount : Nat
  authorCount : Nat
  riskLevel : String
deriving DecidableEq, Repr

/-- The `metrics` sub-dict of one per-file knowledge impact entry. -/
structure KDFileImpactMetrics where
  dominantAuthor : String
  ownershipRatio : ℚ
  contributorCount : Nat
  authorKnowledgeDepth : ℚ
  authorKnowledgeCoverage : ℚ
  knowledgeRisk : String
deriving DecidableEq, Repr

/-- One per-file knowledge impact entry. -/
structure KDFileImpactEntry where
  newFile : Bool
  metrics : Option KDFileImpactMetrics
deriving DecidableEq, Repr

/-- The result of `KnowledgeDistributionMetric.analyze_impact`. -/
structure KDImpact where
  teamMetrics : KDTeamImpact
  fileMetrics : List (String × KDFileImpactEntry)
deriving DecidableEq, Repr

/-- `KnowledgeDistributionMetric.analyze_impact` (`authors.get(dominant,
{}).get("depth", 0)` is a lookup with default 0). -/
def knowledgeImpact (currentChanges : List (String × CurrentChange))
    (tm : TeamMetrics) : KDImpact :=
  { teamMetrics :=
      { busFactor := tm.busFactor
        knowledgeRedundancy := tm.knowledgeRedundancy
        fileCount := tm.fileCount
        authorCount := tm.authorCount
        riskLevel := teamRiskLevel tm.busFactor tm.knowledgeRedundancy }
    fileMetrics := currentChanges.map (fun fc =>
      match tm.fileOwnership.lookup fc.1 with
      | none => (fc.1, { newFile := true, metrics := none })
      | some fo =>
          let depth := match tm.authors.lookup fo.dominantAuthor with
            | some k => k.depth
            | none => 0
          let coverage := match tm.authors.lookup fo.dominantAuthor with
            | some k => k.coverage
            | none => 0
          (fc.1, { newFile := false
                   metrics := some {
                     dominantAuthor := fo.dominantAuthor
                     ownershipRatio := fo.ownershipRatio
                     contributorCount := fo.contributorCount
                     authorKnowledgeDepth := depth
                     authorKnowledgeCoverage := coverage
                     knowledgeRisk := knowledgeRisk fo.ownershipRatio
                       fo.contributorCount depth } })) }

/-! ## Coupling impact (`ChangeCouplingMetric.analyze_impact`) -/

/-- One coupled-file reference of the `modified`/`unmodified` lists. -/
structure CoupledFileRef where
  file : String
  strength : ℚ
  count : Nat
deriving DecidableEq, Repr

/-- `ChangeCouplingMetric._calculate_risk_level`. -/
def couplingRiskLevel (maxCoupling : ℚ) (strongUnmodified : Nat) : String :=
  if 8/10 < maxCoupling ∧ 0 < strongUnmodified then "critical"
  else if 7/10 < maxCoupling ∧ 0 < strongUnmodified then "high"
  else if 1/2 < maxCoupling ∨ 1 < strongUnmodified then "medium"
  else if 3/10 < maxCoupling then "elevated"
  else "low"

/-- The `metrics` sub-dict of one coupling impact entry. -/
structure CouplingImpactMetrics where
  maxCoupling : ℚ
  avgCoupling : ℚ
  totalCoupledFiles : Nat
  modifiedCoupledFiles : Nat
  unmodifiedCoupledFiles : Nat
  strongUnmodified : Nat
  riskLevel : String
deriving DecidableEq, Repr

/-- One coupling impact entry. -/
structure CouplingImpactEntry where
  newFile : Bool
  modified : List CoupledFileRef
  unmodified : List CoupledFileRef
  metrics : Option CouplingImpactMetrics
deriving DecidableEq, Repr

/-- `ChangeCouplingMetric.analyze_impact`. -/
def changeCouplingImpact (currentChanges : List (String × CurrentChange))
    (mr : CouplingResult) : List (String × CouplingImpactEntry) :=
  let modifiedFiles := currentChanges.map Prod.fst
  modifiedFiles.map (fun f =>
    if (mr.fileChanges.lookup f).isNone then
      (f, { newFile := true, modified := [], unmodified := [], metrics := none })
    else
      let rel := mr.coupling.filter (fun pd => decide (f = pd.1.1 ∨ f = pd.1.2))
      let refs := rel.map (fun pd =>
        ({ file := if pd.1.2 = f then pd.1.1 else pd.1.2
           strength := pd.2.jaccard
           count := pd.2.count } : CoupledFileRef))
      let modifiedRefs := refs.filter (fun r => decide (r.file ∈ modifiedFiles))
      let unmodifiedRefs := refs.filter (fun r => decide (r.file ∉ modifiedFiles))
      let maxCoupling := (refs.map CoupledFileRef.strength).foldr max 0
      let avgCoupling :=
        if 0 < refs.length then
          (refs.map CoupledFileRef.strength).sum / (refs.length : ℚ)
        else 0
      let strong := (unmodifiedRefs.filter (fun r => decide (1/2 < r.strength))).length
      (f, { newFile := false
            modified := List.insertionSort (fun x y => y.strength ≤ x.strength)
              modifiedRefs
            unmodified := List.insertionSort (fun x y => y.strength ≤ x.strength)
              unmodifiedRefs
            metrics := some {
              maxCoupling := maxCoupling
              avgCoupling := avgCoupling
              totalCoupledFiles := refs.length
              modifiedCoupledFiles := modifiedRefs.length
              unmodifiedCoupledFiles := unmodifiedRefs.length
              strongUnmodified := strong
              riskLevel := couplingRiskLevel maxCoupling strong } }))

/-! ## Hotspot impact (`HotspotAnalysisMetric.analyze_impact`) -/

/-- `HotspotAnalysisMetric._calculate_risk_level`. -/
def hotspotRiskLevel (percentile relSize : ℚ) : String :=
  if 9/10 < percentile ∧ 3/2 < relSize then "critical"
  else if 8/10 < percentile ∨ (7/10 < percentile ∧ 3/2 < relSize) then "high"
  else if 6/10 < percentile ∨ 2 < relSize then "medium"
  else if 4/10 < percentile ∨ 1 < relSize then "elevated"
  else "low"

/-- The `metrics` sub-dict of one hotspot impact entry. -/
structure HotspotImpactMetrics where
  hotspotScore : ℚ
  scorePercentile : ℚ
  changeFrequency : Nat
  avgChangeSize : ℚ
  currentChangeSize : Nat
  relativeChangeSize : ℚ
  riskLevel : String
deriving DecidableEq, Repr

/-- One hotspot impact entry. -/
structure HotspotImpactEntry where
  newFile : Bool
  metrics : Option HotspotImpactMetrics
deriving DecidableEq, Repr

/-- `HotspotAnalysisMetric.analyze_impact`. -/
def hotspotImpact (currentChanges : List (String × CurrentChange))
    (mr : List (String × HotspotRec)) : List (String × HotspotImpactEntry) :=
  currentChanges.map (fun fc =>
    match mr.lookup fc.1 with
    | none => (fc.1, { newFile := true, metrics := none })
    | some hd =>
        let allScores := mr.map (fun x => x.2.score)
        let percentile :=
          ((allScores.filter (fun s => decide (s ≤ hd.score))).length : ℚ) /
            (allScores.length : ℚ)
        let rel := if 0 < hd.avgChurn then (fc.2.total : ℚ) / hd.avgChurn else 0
        (fc.1, { newFile := false
                 metrics := some {
                   hotspotScore := hd.score
                   scorePercentile := percentile
                   changeFrequency := hd.changes
                   avgChangeSize := hd.avgChurn
                   currentChangeSize := fc.2.total
                   relativeChangeSize := rel
                   riskLevel := hotspotRiskLevel percentile rel } }))

/-! ## The synthetic three-commit scenario of the design document (§8) -/

/-- Commit A: author1 adds `x.py`. -/
def sampleCommitA : Commit :=
  { hash := "a1", author := "author1", date := "d1", message := "add x",
    files := [{ filename := "x.py", status := "A", additions := 1, deletions := 0 }] }

/-- Commit B: author1 modifies `x.py` and `y.py` together. -/
def sampleCommitB : Commit :=
  { hash := "b2", author := "author1", date := "d2", message := "mod x y",
    files := [{ filename := "x.py", status := "M", additions := 1, deletions := 1 },
              { filename := "y.py", status := "M", additions := 1, deletions := 1 }] }

/-- Commit C: author2 modifies `y.py` alone. -/
def sampleCommitC : Commit :=
  { hash := "c3", author := "author2", date := "d3", message := "mod y",
    files := [{ filename := "y.py", status := "M", additions := 1, deletions := 1 }] }

/-- The three-commit synthetic history. -/
def sampleCommits : List Commit := [sampleCommitA, sampleCommitB, sampleCommitC]

/-- A two-plugin registry: one working computator, one whose `calculate`
raises. -/
def samplePlugins : List (String × MPlugin Nat Nat) :=
  [("ok", okPlugin), ("bad", badPlugin)]

/-- An analyzer configuration with a file-pattern filter. -/
def cfgWithPatterns : AnalyzerConfig :=
  { repoAbsPath := "/repo", maxCommits := some 100, sinceDays := none,
    filePatterns := ["*.py"] }

/-- The same analyzer configuration without the filter. -/
def cfgNoPatterns : AnalyzerConfig :=
  { repoAbsPath := "/repo", maxCommits := some 100, sinceDays := none,
    filePatterns := [] }

/-- An environment with an empty cache. -/
def sampleEnvMiss : CollectorEnv :=
  { config := { repoAbsPath := "/repo", maxCommits := none, sinceDays := none }
    cache := none
    gitChunks := ["h1\na1\nd1\nm1\nM\tf.py\nCOMMIT_END"]
    ncpu := 2 }

/-- An environment with a fresh, readable cache entry. -/
def sampleEnvHit : CollectorEnv :=
  { config := { repoAbsPath := "/repo", maxCommits := none, sinceDays := none }
    cache := some { age := 100, data := some sampleCommits }
    gitChunks := []
    ncpu := 2 }

/-! ### Slicing and parsing lemmas -/

theorem splitGo_length (l : List α) (avg rem k : Nat) :
    (splitGo l avg rem k).length = k := by
  induction k generalizing l rem with
  | zero => rfl
  | succ k ih => simp [splitGo, ih]

theorem splitGo_flatten (l : List α) (avg rem k : Nat) :
    (splitGo l avg rem k).flatten = l.take (k * avg + min rem k) := by
  induction k generalizing l rem with
  | zero => simp [splitGo]
  | succ k ih =>
      rcases rem with _ | r
      · simp only [splitGo, gt_iff_lt, lt_irrefl, if_false, ite_false,
          List.flatten_cons, Nat.zero_sub, ih]
        rw [← List.take_add]
        congr 1
        rw [Nat.succ_mul]
        omega
      · simp only [splitGo, gt_iff_lt, Nat.succ_pos, if_pos,
          Nat.succ_sub_one, List.flatten_cons, ih]
        rw [← List.take_add]
        congr 1
        rw [Nat.succ_mul]
        omega

theorem splitList_length (l : List α) (n : Nat) :
    (splitList l n).length = n := splitGo_length ..

theorem splitList_flatten (l : List α) (n : Nat) (hn : 1 ≤ n) :
    (splitList l n).flatten = l := by
  unfold splitList
  rw [splitGo_flatten]
  have hmod : l.length % n < n := Nat.mod_lt _ (by omega)
  have hdm := Nat.div_add_mod l.length n
  have : n * (l.length / n) + min (l.length % n) n = l.length := by omega
  rw [this, List.take_length]

theorem filterMap_flatten_eq (f : α → Option β) (L : List (List α)) :
    (L.map (List.filterMap f)).flatten = (L.flatten).filterMap f := by
  induction L with
  | nil => rfl
  | cons x xs ih =>
      simp only [List.map_cons, List.flatten_cons, List.filterMap_append, ih]

/-- C10: for every worker count `n ≥ 1`, `_split_list` yields exactly `n`
slices concatenating to the input, and chunked parsing concatenates to
sequential parsing of the whole list, order included. -/
theorem splitList_parse_equiv (chunks : List String) (n : Nat) (hn : 1 ≤ n) :
    (splitList chunks n).length = n ∧
    (splitList chunks n).flatten = chunks ∧
    ((splitList chunks n).map parseCommitsChunk).flatten = parseCommitsChunk chunks := by
  refine ⟨splitList_length .., splitList_flatten _ _ hn, ?_⟩
  unfold parseCommitsChunk
  rw [filterMap_flatten_eq, splitList_flatten _ _ hn]

/-- Witness for `splitList_parse_equiv` at a concrete two-chunk input with
three workers. -/
theorem splitList_parse_equiv_witness :
    (splitList ["h1\na1\nd1\nm1\nCOMMIT_END", "bad chunk"] 3).length = 3 ∧
    (splitList ["h1\na1\nd1\nm1\nCOMMIT_END", "bad chunk"] 3).flatten =
      ["h1\na1\nd1\nm1\nCOMMIT_END", "bad chunk"] ∧
    ((splitList ["h1\na1\nd1\nm1\nCOMMIT_END", "bad chunk"] 3).map
        parseCommitsChunk).flatten =
      parseCommitsChunk ["h1\na1\nd1\nm1\nCOMMIT_END", "bad chunk"] :=
  splitList_parse_equiv ["h1\na1\nd1\nm1\nCOMMIT_END", "bad chunk"] 3 (by omega)

/-! ### Status-code synthesis (C1) -/

theorem parseFileLine_additions (line : List Char) (fc : FileChange)
    (h : parseFileLine line = some fc) :
    fc.additions = statusAdditions fc.status ∧
    fc.deletions = statusDeletions fc.status := by
  simp only [parseFileLine] at h
  split at h
  · exact absurd h (by simp)
  · split at h
    · simp only [Option.some.injEq] at h
      subst h
      exact ⟨rfl, rfl⟩
    · exact absurd h (by simp)

/-- C1 (amended): a file entry produced by history parsing has
additions/deletions `(1,0)` when its status code starts with `"A"`,
`(0,1)` when it does not start with `"A"` but starts with `"D"`, and
`(1,1)` otherwise — the parser tests `status.startswith`, not equality
with `"A"`/`"D"`. -/
theorem parse_status_synthesis (chunks : List String) (c : Commit)
    (fc : FileChange) (hc : c ∈ parseCommitsChunk chunks)
    (hf : fc ∈ c.files) :
    (strStartsWith fc.status "A" = true →
      fc.additions = 1 ∧ fc.deletions = 0) ∧
    (strStartsWith fc.status "A" = false →
      strStartsWith fc.status "D" = true →
      fc.additions = 0 ∧ fc.deletions = 1) ∧
    (strStartsWith fc.status "A" = false →
      strStartsWith fc.status "D" = false →
      fc.additions = 1 ∧ fc.deletions = 1) := by
  obtain ⟨s, -, hs⟩ := List.mem_filterMap.mp hc
  have hfile : ∃ line, parseFileLine line = some fc := by
    simp only [parseOneCommit] at hs
    split at hs
    · split at hs
      · simp only [Option.some.injEq] at hs
        subst hs
        simp only [List.mem_filterMap] at hf
        obtain ⟨line, -, hline⟩ := hf
        exact ⟨line, hline⟩
      · exact absurd hs (by simp)
    · exact absurd hs (by simp)
  obtain ⟨line, hline⟩ := hfile
  obtain ⟨ha, hd⟩ := parseFileLine_additions line fc hline
  unfold statusAdditions at ha
  unfold statusDeletions at hd
  refine ⟨fun hA => ?_, fun hA hD => ?_, fun hA hD => ?_⟩
  · rw [if_pos hA] at ha hd
    exact ⟨ha, hd⟩
  · rw [if_neg (by simp [hA]), if_pos hD] at ha hd
    exact ⟨ha, hd⟩
  · rw [if_neg (by simp [hA]), if_neg (by simp [hD])] at ha hd
    exact ⟨ha, hd⟩

/-- Witness for `parse_status_synthesis` at a concrete chunk whose single
name-status line reads `M<TAB>f.py`. -/
theorem parse_status_synthesis_witness :
    (strStartsWith (FileChange.mk "f.py" "M" 1 1).status "A" = true →
      (FileChange.mk "f.py" "M" 1 1).additions = 1 ∧
      (FileChange.mk "f.py" "M" 1 1).deletions = 0) ∧
    (strStartsWith (FileChange.mk "f.py" "M" 1 1).status "A" = false →
      strStartsWith (FileChange.mk "f.py" "M" 1 1).status "D" = true →
      (FileChange.mk "f.py" "M" 1 1).additions = 0 ∧
      (FileChange.mk "f.py" "M" 1 1).deletions = 1) ∧
    (strStartsWith (FileChange.mk "f.py" "M" 1 1).status "A" = false →
      strStartsWith (FileChange.mk "f.py" "M" 1 1).status "D" = false →
      (FileChange.mk "f.py" "M" 1 1).additions = 1 ∧
      (FileChange.mk "f.py" "M" 1 1).deletions = 1) :=
  parse_status_synthesis ["h\na\nd\nm\nM\tf.py\nCOMMIT_END"]
    (Commit.mk "h" "a" "d" "m" [FileChange.mk "f.py" "M" 1 1])
    (FileChange.mk "f.py" "M" 1 1) (by decide) (by decide)

/-! ## Generic association-list machinery

Python dicts are modelled as association lists; these lemmas relate
`List.lookup`, key sets and permutations (the metric computators all end by
re-sorting their result dict, which permutes the entries). -/

theorem firstOccDedup_go_mem [DecidableEq α] (l : List α) :
    ∀ (seen : List α) (x : α),
      x ∈ firstOccDedup.go l seen ↔ x ∈ l ∧ x ∉ seen := by
  induction l with
  | nil => simp [firstOccDedup.go]
  | cons y ys ih =>
      intro seen x
      by_cases hy : y ∈ seen
      · rw [firstOccDedup.go, if_pos hy, ih]
        simp only [List.mem_cons]
        constructor
        · rintro ⟨h1, h2⟩
          exact ⟨Or.inr h1, h2⟩
        · rintro ⟨rfl | h1, h2⟩
          · exact absurd hy h2
          · exact ⟨h1, h2⟩
      · rw [firstOccDedup.go, if_neg hy]
        simp only [List.mem_cons, ih]
        constructor
        · rintro (rfl | ⟨h1, h2⟩)
          · exact ⟨Or.inl rfl, hy⟩
          · exact ⟨Or.inr h1, fun hc => h2 (Or.inr hc)⟩
        · rintro ⟨rfl | h1, h2⟩
          · exact Or.inl rfl
          · by_cases hxy : x = y
            · exact Or.inl hxy
            · exact Or.inr ⟨h1, fun hc => hc.elim hxy h2⟩

theorem firstOccDedup_mem [DecidableEq α] (l : List α) (x : α) :
    x ∈ firstOccDedup l ↔ x ∈ l := by
  simp [firstOccDedup, firstOccDedup_go_mem]

theorem firstOccDedup_go_nodup [DecidableEq α] (l : List α) :
    ∀ seen : List α, (firstOccDedup.go l seen).Nodup := by
  induction l with
  | nil => intro seen; simp [firstOccDedup.go]
  | cons y ys ih =>
      intro seen
      by_cases hy : y ∈ seen
      · simpa [firstOccDedup.go, if_pos hy] using ih seen
      · rw [firstOccDedup.go, if_neg hy]
        refine List.nodup_cons.mpr ⟨?_, ih _⟩
        rw [firstOccDedup_go_mem]
        rintro ⟨-, h⟩
        exact h (List.mem_cons_self _ _)

theorem firstOccDedup_nodup [DecidableEq α] (l : List α) :
    (firstOccDedup l).Nodup := firstOccDedup_go_nodup l []

theorem lookup_map_self [DecidableEq α] (keys : List α) (g : α → β)
    (hk : keys.Nodup) (x : α) (hx : x ∈ keys) :
    (keys.map (fun k => (k, g k))).lookup x = some (g x) := by
  induction keys with
  | nil => cases hx
  | cons k ks ih =>
      obtain ⟨hknot, hksnd⟩ := List.nodup_cons.mp hk
      rcases List.mem_cons.mp hx with rfl | hxk
      · simp [List.lookup]
      · have hne : (x == k) = false :=
          beq_eq_false_iff_ne.mpr (fun h => hknot (h ▸ hxk))
        simp only [List.map_cons, List.lookup, hne]
        exact ih hksnd hxk

theorem lookup_eq_some_iff_mem [DecidableEq α] (l : List (α × β))
    (hnd : (l.map Prod.fst).Nodup) (a : α) (b : β) :
    l.lookup a = some b ↔ (a, b) ∈ l := by
  induction l with
  | nil => simp [List.lookup]
  | cons kv t ih =>
      obtain ⟨k, v⟩ := kv
      rw [List.map_cons] at hnd
      obtain ⟨hknot, htnd⟩ := List.nodup_cons.mp hnd
      by_cases hak : a = k
      · subst hak
        have hbeq : (a == a) = true := beq_self_eq_true a
        simp only [List.lookup, hbeq, List.mem_cons, Option.some.injEq,
          Prod.mk.injEq]
        constructor
        · rintro rfl
          exact Or.inl ⟨trivial, rfl⟩
        · rintro (⟨-, rfl⟩ | hmem)
          · rfl
          · exact absurd (List.mem_map_of_mem Prod.fst hmem) hknot
      · have hbeq : (a == k) = false := beq_eq_false_iff_ne.mpr hak
        simp only [List.lookup, hbeq, List.mem_cons, Prod.mk.injEq, ih htnd]
        constructor
        · exact Or.inr
        · rintro (⟨rfl, -⟩ | h)
          · exact absurd rfl hak
          · exact h

theorem lookup_eq_none_iff_keys [DecidableEq α] (l : List (α × β)) (a : α) :
    l.lookup a = none ↔ a ∉ l.map Prod.fst := by
  induction l with
  | nil => simp [List.lookup]
  | cons kv t ih =>
      obtain ⟨k, v⟩ := kv
      by_cases hak : a = k
      · subst hak
        have hbeq : (a == a) = true := beq_self_eq_true a
        simp [List.lookup, hbeq]
      · have hbeq : (a == k) = false := beq_eq_false_iff_ne.mpr hak
        simp [List.lookup, hbeq, ih, hak]

theorem lookup_eq_of_perm [DecidableEq α] (l l' : List (α × β))
    (h : l.Perm l') (hnd : (l.map Prod.fst).Nodup) (a : α) :
    l.lookup a = l'.lookup a := by
  have hnd' : (l'.map Prod.fst).Nodup := ((h.map Prod.fst).nodup_iff).mp hnd
  cases hl : l.lookup a with
  | none =>
      have := (lookup_eq_none_iff_keys l a).mp hl
      have : a ∉ l'.map Prod.fst := fun hc =>
        this ((h.map Prod.fst).mem_iff.mpr hc)
      exact ((lookup_eq_none_iff_keys l' a).mpr this).symm
  | some b =>
      have hmem := (lookup_eq_some_iff_mem l hnd a b).mp hl
      exact ((lookup_eq_some_iff_mem l' hnd' a b).mpr (h.mem_iff.mp hmem)).symm

/-- C1 counterexample: the claim as stated says a status code other than
`"A"` and `"D"` yields `additions = 1 ∧ deletions = 1`, but the parser
maps the status code `"AM"` (≠ `"A"`, ≠ `"D"`) to `(additions, deletions)
= (1, 0)` because it tests `startswith("A")`. -/
theorem parse_status_counterexample :
    (parseCommitsChunk ["h\na\nd\nm\nAM\tf.py\nCOMMIT_END"]).map
        (fun c => c.files.map (fun fc => (fc.status, fc.additions, fc.deletions))) =
      [[("AM", 1, 0)]] ∧
    ("AM" : String) ≠ "A" ∧ ("AM" : String) ≠ "D" ∧ ¬((1 : Nat) = 1 ∧ (0 : Nat) = 1) := by
  refine ⟨by decide, by decide, by decide, by decide⟩

/-! ### Change-coupling counting lemmas (towards C2) -/

theorem count_map_sortPair (x : String) (xs : List String) (a b : String) :
    ((((xs.map (fun y => (x, y))).filter (fun q => decide (q.1 ≠ q.2))).map
        (fun q => sortPair q.1 q.2)).count (a, b)) =
      xs.countP (fun y => decide (x ≠ y) && (sortPair x y == (a, b))) := by
  rw [List.count_eq_countP, List.countP_map, List.countP_filter, List.countP_map]
  congr 1
  funext y
  simp [Function.comp, Bool.and_comm]

theorem headPred_le_count_b (x : String) (xs : List String) (a b : String)
    (hx : x = a) (hab : a ≠ b) :
    xs.countP (fun y => decide (x ≠ y) && (sortPair x y == (a, b))) ≤
      xs.count b := by
  subst hx
  rw [List.count_eq_countP]
  apply List.countP_mono_left
  intro y hy hpred
  simp only [Bool.and_eq_true, decide_eq_true_eq, beq_iff_eq] at hpred
  obtain ⟨hay, hsp⟩ := hpred
  unfold sortPair at hsp
  split at hsp
  · rw [Prod.mk.injEq] at hsp
    obtain ⟨-, rfl⟩ := hsp
    exact beq_self_eq_true y
  · rw [Prod.mk.injEq] at hsp
    exact absurd hsp.2 hab

theorem headPred_le_count_a (x : String) (xs : List String) (a b : String)
    (hx : x = b) (hab : a ≠ b) :
    xs.countP (fun y => decide (x ≠ y) && (sortPair x y == (a, b))) ≤
      xs.count a := by
  subst hx
  rw [List.count_eq_countP]
  apply List.countP_mono_left
  intro y hy hpred
  simp only [Bool.and_eq_true, decide_eq_true_eq, beq_iff_eq] at hpred
  obtain ⟨hxy, hsp⟩ := hpred
  unfold sortPair at hsp
  split at hsp
  · rw [Prod.mk.injEq] at hsp
    exact absurd hsp.1.symm hab
  · rw [Prod.mk.injEq] at hsp
    obtain ⟨rfl, -⟩ := hsp
    exact beq_self_eq_true y

theorem headPred_eq_zero (x : String) (xs : List String) (a b : String)
    (hxa : x ≠ a) (hxb : x ≠ b) :
    xs.countP (fun y => decide (x ≠ y) && (sortPair x y == (a, b))) = 0 := by
  rw [List.countP_eq_zero]
  intro y hy hpred
  simp only [Bool.and_eq_true, decide_eq_true_eq, beq_iff_eq] at hpred
  obtain ⟨hxy, hsp⟩ := hpred
  unfold sortPair at hsp
  split at hsp
  · rw [Prod.mk.injEq] at hsp
    exact hxa hsp.1
  · rw [Prod.mk.injEq] at hsp
    exact hxb hsp.2

theorem commitPairOccs_cons_count (x : String) (xs : List String)
    (a b : String) :
    (commitPairOccs (x :: xs)).count (a, b) =
      xs.countP (fun y => decide (x ≠ y) && (sortPair x y == (a, b))) +
        (commitPairOccs xs).count (a, b) := by
  show ((((xs.map (fun y => (x, y)) ++ listPairs xs).filter
      (fun q => decide (q.1 ≠ q.2))).map (fun q => sortPair q.1 q.2)).count (a, b)) = _
  rw [List.filter_append, List.map_append, List.count_append,
    count_map_sortPair]
  rfl

/-- The coupling counter of a pair is bounded by each member's change
count, provided no commit lists a filename twice. -/
theorem commitPairOccs_count_le (a b : String) (hab : a ≠ b) :
    ∀ l : List String, l.Nodup →
      (commitPairOccs l).count (a, b) ≤ l.count a ∧
      (commitPairOccs l).count (a, b) ≤ l.count b := by
  intro l
  induction l with
  | nil => intro _; constructor <;> simp [commitPairOccs, listPairs]
  | cons x xs ih =>
      intro hnd
      obtain ⟨hx, hxs⟩ := List.nodup_cons.mp hnd
      obtain ⟨iha, ihb⟩ := ih hxs
      rw [commitPairOccs_cons_count]
      by_cases hxa : x = a
      · subst hxa
        have hhead := headPred_le_count_b x xs x b rfl hab
        have hacount : xs.count x = 0 := List.count_eq_zero.mpr hx
        have hbcount : xs.count b ≤ 1 := List.nodup_iff_count_le_one.mp hxs b
        constructor
        · rw [List.count_cons_self]
          omega
        · rw [List.count_cons_of_ne (Ne.symm hab)]
          omega
      · by_cases hxb : x = b
        · subst hxb
          have hhead := headPred_le_count_a x xs a x rfl hab
          have hbcount : xs.count x = 0 := List.count_eq_zero.mpr hx
          have hacount : xs.count a ≤ 1 := List.nodup_iff_count_le_one.mp hxs a
          constructor
          · rw [List.count_cons_of_ne hab]
            omega
          · rw [List.count_cons_self]
            omega
        · have hhead := headPred_eq_zero x xs a b hxa hxb
          constructor
          · rw [List.count_cons_of_ne (fun h => hxa h.symm)]
            omega
          · rw [List.count_cons_of_ne (fun h => hxb h.symm)]
            omega

theorem pairCount_le_fileChanges (commits : List Commit)
    (hnd : ∀ c ∈ commits, (filenamesOf c).Nodup) (a b : String) (hab : a ≠ b) :
    pairCount commits (a, b) ≤ fileChangesCount commits a ∧
    pairCount commits (a, b) ≤ fileChangesCount commits b := by
  have key : ∀ s : String,
      (∀ l ∈ commitFilesOf commits, (commitPairOccs l).count (a, b) ≤ l.count s) →
      pairCount commits (a, b) ≤ fileChangesCount commits s := by
    intro s hpt
    unfold pairCount allPairOccs fileChangesCount
    rw [List.count_flatten, List.count_flatten, List.map_map]
    calc ((commitFilesOf commits).map (List.count (a, b) ∘ commitPairOccs)).sum
        ≤ ((commitFilesOf commits).map (fun l => l.count s)).sum :=
          List.sum_le_sum (fun l hl => hpt l hl)
      _ ≤ ((commits.map filenamesOf).map (fun l => l.count s)).sum := by
          apply List.Sublist.sum_le_sum
          · exact (List.filter_sublist _).map _
          · intro n hn
            exact Nat.zero_le n
  have hmemnd : ∀ l ∈ commitFilesOf commits, l.Nodup := by
    intro l hl
    obtain ⟨c, hcmem, rfl⟩ := List.mem_map.mp (List.mem_filter.mp hl).1
    exact hnd c hcmem
  exact ⟨key a (fun l hl => (commitPairOccs_count_le a b hab l (hmemnd l hl)).1),
    key b (fun l hl => (commitPairOccs_count_le a b hab l (hmemnd l hl)).2)⟩

theorem mem_allPairOccs_ne (commits : List Commit) (p : String × String)
    (hp : p ∈ allPairOccs commits) : p.1 ≠ p.2 := by
  unfold allPairOccs at hp
  rw [List.mem_flatten] at hp
  obtain ⟨occs, hoccs, hpo⟩ := hp
  obtain ⟨l, -, rfl⟩ := List.mem_map.mp hoccs
  unfold commitPairOccs at hpo
  obtain ⟨q, hq, rfl⟩ := List.mem_map.mp hpo
  have hne : q.1 ≠ q.2 := by
    have := (List.mem_filter.mp hq).2
    simpa using this
  unfold sortPair
  split
  · exact hne
  · exact hne.symm

theorem sortPair_comm (a b : String) : sortPair a b = sortPair b a := by
  unfold sortPair
  rcases le_total a b with h | h
  · by_cases h2 : b ≤ a
    · have hab : a = b := le_antisymm h h2
      subst hab
      rfl
    · rw [if_pos h, if_neg h2]
  · by_cases h2 : a ≤ b
    · have hab : a = b := le_antisymm h2 h
      subst hab
      rfl
    · rw [if_neg h2, if_pos h]

/-- C2: the coupling table stores each unordered pair under its sorted key,
so looking up `(f1, f2)` and `(f2, f1)` yields the same record; every
stored record satisfies `jaccard = count / (file1_changes + file2_changes -
count)`, with `jaccard ∈ [0, 1]`, and the `union > 0` guard returns 0 on a
zero union.  The hypothesis is the data-model invariant that a filename is
unique within a commit. -/
theorem coupling_symmetric_jaccard (commits : List Commit)
    (hnd : ∀ c ∈ commits, (filenamesOf c).Nodup) :
    (∀ f1 f2, couplingLookup commits f1 f2 = couplingLookup commits f2 f1) ∧
    (∀ p rec, (p, rec) ∈ (changeCouplingCalculate commits).coupling →
      rec.jaccard = (rec.count : ℚ) /
        ((rec.file1Changes : ℚ) + (rec.file2Changes : ℚ) - (rec.count : ℚ)) ∧
      0 ≤ rec.jaccard ∧ rec.jaccard ≤ 1 ∧
      ((rec.file1Changes : Int) + (rec.file2Changes : Int) - (rec.count : Int) = 0 →
        rec.jaccard = 0)) := by
  constructor
  · intro f1 f2
    unfold couplingLookup
    rw [sortPair_comm]
  · intro p rec hmem
    have hmem' : (p, rec) ∈ normalizedCoupling commits :=
      (List.perm_insertionSort _ _).mem_iff.mp hmem
    obtain ⟨pk, hpk, heq⟩ := List.mem_map.mp hmem'
    injection heq with h1 h2
    rw [← h2]
    have hppos : pk ∈ allPairOccs commits := (firstOccDedup_mem _ _).mp hpk
    have hne : pk.1 ≠ pk.2 := mem_allPairOccs_ne commits pk hppos
    have hcnt1 : 0 < pairCount commits pk := List.count_pos_iff.mpr hppos
    obtain ⟨hle1, hle2⟩ := pairCount_le_fileChanges commits hnd pk.1 pk.2 hne
    simp only [mkCouplingRec]
    set cnt := pairCount commits pk with hcntdef
    set f1 := fileChangesCount commits pk.1 with hf1def
    set f2 := fileChangesCount commits pk.2 with hf2def
    have hle1' : cnt ≤ f1 := hle1
    have hle2' : cnt ≤ f2 := hle2
    have hupos : (0 : Int) < (f1 : Int) + (f2 : Int) - (cnt : Int) := by omega
    have hjac : jaccardOf cnt ((f1 : Int) + (f2 : Int) - (cnt : Int)) =
        (cnt : ℚ) / ((f1 : ℚ) + (f2 : ℚ) - (cnt : ℚ)) := by
      rw [jaccardOf, if_pos hupos]
      push_cast
      ring
    refine ⟨hjac, ?_, ?_, ?_⟩
    · rw [hjac]
      apply div_nonneg (by positivity)
      have : (cnt : ℚ) ≤ (f1 : ℚ) + (f2 : ℚ) := by
        have : cnt ≤ f1 + f2 := by omega
        exact_mod_cast le_trans (Nat.cast_le.mpr this) (by push_cast; ring_nf; exact le_refl _)
      linarith [this, (by exact_mod_cast Nat.zero_le cnt : (0:ℚ) ≤ (cnt:ℚ))]
    · rw [hjac]
      rw [div_le_one (by
        have : (0 : ℚ) < (f1 : ℚ) + (f2 : ℚ) - (cnt : ℚ) := by
          exact_mod_cast hupos
        linarith)]
      have : (cnt : Int) ≤ (f1 : Int) + (f2 : Int) - (cnt : Int) := by omega
      exact_mod_cast this
    · intro hzero
      exact absurd hzero (by omega)

/-- Witness for `coupling_symmetric_jaccard` on the synthetic three-commit
history. -/
theorem coupling_symmetric_jaccard_witness :
    (∀ f1 f2, couplingLookup sampleCommits f1 f2 = couplingLookup sampleCommits f2 f1) ∧
    (∀ p rec, (p, rec) ∈ (changeCouplingCalculate sampleCommits).coupling →
      rec.jaccard = (rec.count : ℚ) /
        ((rec.file1Changes : ℚ) + (rec.file2Changes : ℚ) - (rec.count : ℚ)) ∧
      0 ≤ rec.jaccard ∧ rec.jaccard ≤ 1 ∧
      ((rec.file1Changes : Int) + (rec.file2Changes : Int) - (rec.count : Int) = 0 →
        rec.jaccard = 0)) :=
  coupling_symmetric_jaccard sampleCommits (by decide)

/-! ### Hotspot score (C8) -/

/-- C8: every entry of the hotspot table satisfies
`score = changes * (churn / changes) = churn` — the algebraic reduction the
design asserts, exact over rational arithmetic. -/
theorem hotspot_score_eq_churn (commits : List Commit) (f : String)
    (rec : HotspotRec) (h : (f, rec) ∈ hotspotCalculate commits) :
    rec.score = (rec.churn : ℚ) := by
  have h' := (List.perm_insertionSort _ _).mem_iff.mp h
  obtain ⟨g, hg, heq⟩ := List.mem_map.mp h'
  injection heq with h1 h2
  rw [← h2]
  have hmem : g ∈ (commits.map filenamesOf).flatten := (firstOccDedup_mem _ _).mp hg
  have hpos : 0 < fileChangesCount commits g := List.count_pos_iff.mpr hmem
  simp only [mkHotspotRec]
  rw [if_pos hpos, mul_comm, div_mul_cancel₀]
  exact Nat.cast_ne_zero.mpr (Nat.pos_iff_ne_zero.mp hpos)

/-- Witness for `hotspot_score_eq_churn` on the synthetic history. -/
theorem hotspot_score_eq_churn_witness :
    (mkHotspotRec sampleCommits "x.py").score =
      ((mkHotspotRec sampleCommits "x.py").churn : ℚ) :=
  hotspot_score_eq_churn sampleCommits "x.py" (mkHotspotRec sampleCommits "x.py")
    ((List.perm_insertionSort _ _).mem_iff.mpr
      (List.mem_map_of_mem (fun f => (f, mkHotspotRec sampleCommits f)) (by decide)))

/-! ### Developer ownership (C5) -/

theorem keys_filterMap_sublist (keys : List α) (g : α → Option β) :
    List.Sublist
      ((keys.filterMap (fun k => (g k).map (fun v => (k, v)))).map Prod.fst)
      keys := by
  induction keys with
  | nil => simp
  | cons k ks ih =>
      cases hg : g k with
      | none =>
          simp only [List.filterMap_cons, hg, Option.map_none']
          exact ih.cons k
      | some v =>
          simp only [List.filterMap_cons, hg, Option.map_some', List.map_cons]
          exact ih.cons₂ k

theorem ownership_lookup (commits : List Commit) (f : String)
    (hf : f ∈ (commits.map filenamesOf).flatten)
    (r : OwnershipRec) (hr : ownershipRecOf commits f = some r) :
    (developerOwnershipCalculate commits).lookup f = some r := by
  have hnodupkeys : ((((firstOccDedup ((commits.map filenamesOf).flatten)).filterMap
      (fun f => (ownershipRecOf commits f).map (fun rr => (f, rr))))).map Prod.fst).Nodup :=
    (keys_filterMap_sublist _ _).nodup (firstOccDedup_nodup _)
  rw [developerOwnershipCalculate]
  have hperm := List.perm_insertionSort
    (fun x y : String × OwnershipRec => y.2.ownershipRatio ≤ x.2.ownershipRatio)
    ((firstOccDedup ((commits.map filenamesOf).flatten)).filterMap
      (fun f => (ownershipRecOf commits f).map (fun rr => (f, rr))))
  rw [lookup_eq_of_perm _ _ hperm (((hperm.map Prod.fst).nodup_iff).mpr hnodupkeys) f]
  apply (lookup_eq_some_iff_mem _ hnodupkeys f r).mpr
  apply List.mem_filterMap.mpr
  exact ⟨f, (firstOccDedup_mem _ _).mpr hf, by rw [hr]; rfl⟩

theorem fileAuthors_sub (commits : List Commit) (f x : String)
    (hx : x ∈ fileAuthorsList commits f) :
    f ∈ (commits.map filenamesOf).flatten ∧ 1 ≤ authorChangeCount commits f x := by
  rw [fileAuthorsList, firstOccDedup_mem] at hx
  obtain ⟨c, hc, rfl⟩ := List.mem_map.mp hx
  obtain ⟨hcmem, hcf⟩ := List.mem_filter.mp hc
  have hff : f ∈ filenamesOf c := by simpa using hcf
  constructor
  · exact List.mem_flatten.mpr ⟨filenamesOf c, List.mem_map_of_mem _ hcmem, hff⟩
  · apply List.count_pos_iff.mpr
    apply List.mem_flatten.mpr
    refine ⟨filenamesOf c, List.mem_map_of_mem _ ?_, hff⟩
    exact List.mem_filter.mpr ⟨hcmem, by simp⟩

/-- C5 (amended): a file changed by exactly two authors with equal change
counts gets `ownership_ratio = 0.5`, and `analyze_impact` assigns it the
ownership category `"shared"` — not `"moderate"`, because the categorizer's
`ratio > 0.5` comparison is strict. -/
theorem ownership_equal_split (commits : List Commit) (f a b : String)
    (ch : CurrentChange) (hab : a ≠ b)
    (hauthors : fileAuthorsList commits f = [a, b])
    (hcounts : authorChangeCount commits f a = authorChangeCount commits f b) :
    ∃ m : OwnershipImpactMetrics,
      (developerOwnershipImpact [(f, ch)]
          (developerOwnershipCalculate commits)).lookup f =
        some { newFile := false, metrics := some m } ∧
      m.ownershipRatio = 1/2 ∧ m.ownershipCategory = "shared" := by
  obtain ⟨hf, hca1⟩ := fileAuthors_sub commits f a (by rw [hauthors]; simp)
  have hratio : (mkOwnershipRec commits f).ownershipRatio = 1/2 := by
    simp only [mkOwnershipRec, hauthors, List.map_cons, List.map_nil,
      List.sum_cons, List.sum_nil, List.foldr_cons, List.foldr_nil, ← hcounts]
    have hmax : max (authorChangeCount commits f a)
        (max (authorChangeCount commits f a) 0) = authorChangeCount commits f a := by
      omega
    rw [hmax]
    have h2n : authorChangeCount commits f a + (authorChangeCount commits f a + 0) =
        2 * authorChangeCount commits f a := by omega
    rw [h2n]
    rw [div_eq_div_iff]
    · push_cast
      ring
    · have : (0 : ℚ) < ((2 * authorChangeCount commits f a : ℕ) : ℚ) := by
        exact_mod_cast (by omega : 0 < 2 * authorChangeCount commits f a)
      exact ne_of_gt this
    · norm_num
  have hcontrib : (mkOwnershipRec commits f).contributorCount = 2 := by
    simp only [mkOwnershipRec, hauthors]
    rfl
  have htotpos : ¬(mkOwnershipRec commits f).totalChanges = 0 := by
    simp only [mkOwnershipRec, hauthors, List.map_cons, List.map_nil,
      List.sum_cons, List.sum_nil, ← hcounts]
    omega
  have hne : ¬(fileAuthorsList commits f).isEmpty = true := by
    rw [hauthors]
    simp
  have hreco : ownershipRecOf commits f = some (mkOwnershipRec commits f) := by
    simp only [ownershipRecOf, if_neg hne, if_neg htotpos]
  have hlook := ownership_lookup commits f hf _ hreco
  refine ⟨{ dominantAuthor := (mkOwnershipRec commits f).dominantAuthor
            ownershipRatio := (mkOwnershipRec commits f).ownershipRatio
            contributorCount := (mkOwnershipRec commits f).contributorCount
            totalChanges := (mkOwnershipRec commits f).totalChanges
            topContributors := (List.insertionSort (fun x y => y.2 ≤ x.2)
              (mkOwnershipRec commits f).authorChanges).take 3
            ownershipCategory := categorizeOwnership
              (mkOwnershipRec commits f).ownershipRatio
              (mkOwnershipRec commits f).contributorCount }, ?_, ?_, ?_⟩
  · dsimp only [developerOwnershipImpact, List.map_cons, List.map_nil]
    rw [hlook]
    simp [List.lookup]
  · exact hratio
  · show categorizeOwnership (mkOwnershipRec commits f).ownershipRatio
        (mkOwnershipRec commits f).contributorCount = "shared"
    rw [hratio, hcontrib]
    norm_num [categorizeOwnership]

/-- Witness for `ownership_equal_split`: the design's synthetic scenario,
where `y.py` is touched once by each of the two authors. -/
theorem ownership_equal_split_witness :
    ∃ m : OwnershipImpactMetrics,
      (developerOwnershipImpact
          [("y.py", { additions := 1, deletions := 1, total := 2, error := false })]
          (developerOwnershipCalculate sampleCommits)).lookup "y.py" =
        some { newFile := false, metrics := some m } ∧
      m.ownershipRatio = 1/2 ∧ m.ownershipCategory = "shared" :=
  ownership_equal_split sampleCommits "y.py" "author1" "author2"
    { additions := 1, deletions := 1, total := 2, error := false }
    (by decide) (by decide) (by decide)

/-- C5 counterexample: on the design's own synthetic scenario the claim's
`"moderate"` category is wrong — the code returns `"shared"` for the
ownership ratio 0.5 because `_categorize_ownership` uses the strict
comparison `ratio > 0.5`. -/
theorem ownership_equal_split_counterexample :
    (((developerOwnershipImpact
          [("y.py", { additions := 1, deletions := 1, total := 2, error := false })]
          (developerOwnershipCalculate sampleCommits)).lookup "y.py").map
        (fun e => (e.newFile, e.metrics.map
          (fun m => (m.ownershipRatio, m.ownershipCategory))))) =
      some (false, some (1/2, "shared")) ∧ ("shared" : String) ≠ "moderate" := by
  refine ⟨?_, by decide⟩
  have hauthors : fileAuthorsList sampleCommits "y.py" = ["author1", "author2"] := by
    decide
  have hc1 : authorChangeCount sampleCommits "y.py" "author1" = 1 := by decide
  have hc2 : authorChangeCount sampleCommits "y.py" "author2" = 1 := by decide
  have hratio : (mkOwnershipRec sampleCommits "y.py").ownershipRatio = 1/2 := by
    simp only [mkOwnershipRec, hauthors, List.map_cons, List.map_nil,
      List.sum_cons, List.sum_nil, List.foldr_cons, List.foldr_nil, hc1, hc2]
    norm_num
  have hcontrib : (mkOwnershipRec sampleCommits "y.py").contributorCount = 2 := by
    simp only [mkOwnershipRec, hauthors]
    rfl
  have htotpos : ¬(mkOwnershipRec sampleCommits "y.py").totalChanges = 0 := by
    simp only [mkOwnershipRec, hauthors, List.map_cons, List.map_nil,
      List.sum_cons, List.sum_nil, hc1, hc2]
    omega
  have hne : ¬(fileAuthorsList sampleCommits "y.py").isEmpty = true := by
    rw [hauthors]
    simp
  have hreco : ownershipRecOf sampleCommits "y.py" =
      some (mkOwnershipRec sampleCommits "y.py") := by
    simp only [ownershipRecOf, if_neg hne, if_neg htotpos]
  have hf : "y.py" ∈ (sampleCommits.map filenamesOf).flatten := by decide
  have hlook := ownership_lookup sampleCommits "y.py" hf _ hreco
  dsimp only [developerOwnershipImpact, List.map_cons, List.map_nil]
  rw [hlook]
  simp only [List.lookup, beq_self_eq_true, Option.map_some']
  rw [hratio, hcontrib]
  norm_num [categorizeOwnership]

/-! ### Plugin-manager isolation (C4) -/

theorem lookup_map_entry [DecidableEq α] (l : List (α × β)) (g : α × β → γ)
    (hnd : (l.map Prod.fst).Nodup) (a : α) (b : β) (h : (a, b) ∈ l) :
    (l.map (fun p => (p.1, g p))).lookup a = some (g (a, b)) := by
  induction l with
  | nil => cases h
  | cons kv t ih =>
      obtain ⟨k, v⟩ := kv
      rw [List.map_cons] at hnd
      obtain ⟨hknot, htnd⟩ := List.nodup_cons.mp hnd
      rcases List.mem_cons.mp h with heq | hmem
      · injection heq with h1 h2
        subst h1
        subst h2
        simp [List.lookup]
      · have hamem : a ∈ t.map Prod.fst := List.mem_map_of_mem Prod.fst hmem
        have hne : (a == k) = false := beq_eq_false_iff_ne.mpr
          (fun hak => hknot (hak ▸ hamem))
        simp only [List.map_cons, List.lookup, hne]
        exact ih htnd hmem

theorem keys_filterMap_sublist_fst (l : List (α × β)) (g : α × β → Option γ) :
    List.Sublist
      ((l.filterMap (fun p => (g p).map (fun v => (p.1, v)))).map Prod.fst)
      (l.map Prod.fst) := by
  induction l with
  | nil => simp
  | cons kv t ih =>
      cases hg : g kv with
      | none =>
          simp only [List.filterMap_cons, hg, Option.map_none', List.map_cons]
          exact ih.cons _
      | some v =>
          simp only [List.filterMap_cons, hg, Option.map_some', List.map_cons]
          exact ih.cons₂ _

theorem lookup_filterMap_entry [DecidableEq α] (l : List (α × β))
    (g : α × β → Option γ) (hnd : (l.map Prod.fst).Nodup) (a : α) (b : β)
    (h : (a, b) ∈ l) :
    (l.filterMap (fun p => (g p).map (fun v => (p.1, v)))).lookup a = g (a, b) := by
  induction l with
  | nil => cases h
  | cons kv t ih =>
      obtain ⟨k, v⟩ := kv
      rw [List.map_cons] at hnd
      obtain ⟨hknot, htnd⟩ := List.nodup_cons.mp hnd
      rcases List.mem_cons.mp h with heq | hmem
      · injection heq with h1 h2
        subst h1
        subst h2
        cases hg : g (a, b) with
        | some i =>
            simp only [List.filterMap_cons, hg, Option.map_some']
            simp [List.lookup]
        | none =>
            simp only [List.filterMap_cons, hg, Option.map_none']
            apply (lookup_eq_none_iff_keys _ _).mpr
            intro hc
            exact hknot ((keys_filterMap_sublist_fst t g).subset hc)
      · have hamem : a ∈ t.map Prod.fst := List.mem_map_of_mem Prod.fst hmem
        have hne : (a == k) = false := beq_eq_false_iff_ne.mpr
          (fun hak => hknot (hak ▸ hamem))
        cases hg : g (k, v) with
        | some i =>
            simp only [List.filterMap_cons, hg, Option.map_some', List.lookup, hne]
            exact ih htnd hmem
        | none =>
            simp only [List.filterMap_cons, hg, Option.map_none']
            exact ih htnd hmem

/-- C4: each computator's entry in `calculate_metrics` is exactly its own
`calculate` outcome — `None` iff it raised, its result otherwise,
independent of every other computator — and `analyze_impact` yields an
entry for an id iff that id's result is non-null and its own
`analyze_impact` does not raise (skipped ids are exactly the null or
raising ones). -/
theorem plugin_isolation {ρ ι : Type} (plugins : List (String × MPlugin ρ ι))
    (commits : List Commit) (changes : List (String × CurrentChange))
    (hnd : (plugins.map Prod.fst).Nodup) :
    (∀ pid p, (pid, p) ∈ plugins →
      (calculateMetrics plugins commits).lookup pid = some (p.calculate commits)) ∧
    (∀ pid p, (pid, p) ∈ plugins →
      (analyzeImpactAll plugins changes (calculateMetrics plugins commits)).lookup pid =
        (p.calculate commits).bind (fun r => p.analyzeImpact changes r)) := by
  constructor
  · intro pid p h
    exact lookup_map_entry plugins (fun q => q.2.calculate commits) hnd pid p h
  · intro pid p h
    have h1 := lookup_filterMap_entry plugins
      (impactOf changes (calculateMetrics plugins commits)) hnd pid p h
    rw [analyzeImpactAll, h1]
    show (match (calculateMetrics plugins commits).lookup pid with
      | some (some r) => p.analyzeImpact changes r
      | _ => none) = (p.calculate commits).bind (fun r => p.analyzeImpact changes r)
    have h2 : (calculateMetrics plugins commits).lookup pid =
        some (p.calculate commits) :=
      lookup_map_entry plugins (fun q => q.2.calculate commits) hnd pid p h
    rw [h2]
    cases p.calculate commits <;> rfl

/-- Witness for `plugin_isolation`: a registry with one working and one
raising computator. -/
theorem plugin_isolation_witness :
    ((calculateMetrics samplePlugins sampleCommits).lookup "ok" =
        some (okPlugin.calculate sampleCommits) ∧
      (calculateMetrics samplePlugins sampleCommits).lookup "bad" =
        some (badPlugin.calculate sampleCommits)) ∧
    ((analyzeImpactAll samplePlugins [] (calculateMetrics samplePlugins sampleCommits)).lookup "ok" =
        (okPlugin.calculate sampleCommits).bind
          (fun r => okPlugin.analyzeImpact [] r) ∧
      (analyzeImpactAll samplePlugins [] (calculateMetrics samplePlugins sampleCommits)).lookup "bad" =
        (badPlugin.calculate sampleCommits).bind
          (fun r => badPlugin.analyzeImpact [] r)) :=
  ⟨⟨(plugin_isolation samplePlugins sampleCommits [] (by decide)).1 "ok" okPlugin
      (List.mem_cons_self _ _),
    (plugin_isolation samplePlugins sampleCommits [] (by decide)).1 "bad" badPlugin
      (List.mem_cons_of_mem _ (List.mem_cons_self _ _))⟩,
   ⟨(plugin_isolation samplePlugins sampleCommits [] (by decide)).2 "ok" okPlugin
      (List.mem_cons_self _ _),
    (plugin_isolation samplePlugins sampleCommits [] (by decide)).2 "bad" badPlugin
      (List.mem_cons_of_mem _ (List.mem_cons_self _ _))⟩⟩

/-! ### Cache key composition (C6) -/

/-- C6 (amended): the pre-digest cache-key string — hence the MD5 cache
key — is determined by the absolute repository path, the commit-count
bound and the time-window bound alone; the analyzer's file-pattern filter
never reaches the Python collector, so two configurations differing only
in file patterns share one cache entry. -/
theorem cache_key_determined (a1 a2 : AnalyzerConfig)
    (hp : a1.repoAbsPath = a2.repoAbsPath) (hm : a1.maxCommits = a2.maxCommits)
    (hs : a1.sinceDays = a2.sinceDays) :
    cacheKeyString (createCollector a1) = cacheKeyString (createCollector a2) := by
  unfold cacheKeyString createCollector
  rw [hp, hm, hs]

/-- Witness for `cache_key_determined` at two concrete configurations
differing only in their file-pattern list. -/
theorem cache_key_determined_witness :
    cacheKeyString (createCollector cfgWithPatterns) =
      cacheKeyString (createCollector cfgNoPatterns) :=
  cache_key_determined cfgWithPatterns cfgNoPatterns rfl rfl rfl

/-- C6 counterexample: the claim says two collector configurations
differing only in their file-pattern filter use distinct cache entries; in
the code the pattern list does not enter `get_cache_key`'s input string, so
the key strings (hence the MD5 digests and cache file paths) coincide. -/
theorem cache_key_patterns_counterexample :
    cacheKeyString (createCollector cfgWithPatterns) =
      cacheKeyString (createCollector cfgNoPatterns) ∧
    cfgWithPatterns.filePatterns ≠ cfgNoPatterns.filePatterns ∧
    cfgWithPatterns.repoAbsPath = cfgNoPatterns.repoAbsPath ∧
    cfgWithPatterns.maxCommits = cfgNoPatterns.maxCommits ∧
    cfgWithPatterns.sinceDays = cfgNoPatterns.sinceDays :=
  ⟨rfl, by decide, rfl, rfl, rfl⟩

/-! ### Cache hit behaviour (C3) -/

/-- C3: a cache entry younger than 86400 seconds that deserializes makes
`collect_history` return exactly the cached commits with no subprocess;
consequently, starting from an empty cache, two runs within 24 hours over
an unchanged repository issue exactly one subprocess between them and
return identical commit sets. -/
theorem cache_hit_roundtrip :
    (∀ (env : CollectorEnv) (e : CacheEntry) (cs : List Commit),
      env.cache = some e → e.age < 86400 → e.data = some cs →
      (collectHistory env).commits = cs ∧
      (collectHistory env).subprocessCalls = 0) ∧
    (∀ (env : CollectorEnv) (t : Nat), env.cache = none → t < 86400 →
      (collectHistory env).subprocessCalls +
        (collectHistory (ageBy (collectHistory env).newEnv t)).subprocessCalls = 1 ∧
      (collectHistory (ageBy (collectHistory env).newEnv t)).commits =
        (collectHistory env).commits) := by
  constructor
  · intro env e cs hc hage hdata
    have hload : loadFromCache env = some cs := by
      rw [loadFromCache, hc]
      show (if e.age < 86400 then e.data else none) = some cs
      rw [if_pos hage, hdata]
    rw [collectHistory, hload]
    exact ⟨rfl, rfl⟩
  · intro env t hc ht
    have hmiss : loadFromCache env = none := by rw [loadFromCache, hc]
    have hr1 : collectHistory env =
        { commits := parseCommitData env
          newEnv := { env with
            cache := some { age := 0, data := some (parseCommitData env) } }
          subprocessCalls := 1 } := by
      rw [collectHistory, hmiss]
    rw [hr1]
    have hload2 : loadFromCache (ageBy { env with
        cache := some { age := 0, data := some (parseCommitData env) } } t) =
        some (parseCommitData env) := by
      rw [loadFromCache]
      show (if 0 + t < 86400 then some (parseCommitData env) else none) = _
      rw [if_pos (by omega)]
    rw [collectHistory, hload2]
    exact ⟨rfl, rfl⟩

/-- Witness for `cache_hit_roundtrip`: a fresh-cache environment and an
empty-cache environment aged one hour. -/
theorem cache_hit_roundtrip_witness :
    ((collectHistory sampleEnvHit).commits = sampleCommits ∧
      (collectHistory sampleEnvHit).subprocessCalls = 0) ∧
    ((collectHistory sampleEnvMiss).subprocessCalls +
        (collectHistory (ageBy (collectHistory sampleEnvMiss).newEnv 3600)).subprocessCalls = 1 ∧
      (collectHistory (ageBy (collectHistory sampleEnvMiss).newEnv 3600)).commits =
        (collectHistory sampleEnvMiss).commits) :=
  ⟨cache_hit_roundtrip.1 sampleEnvHit { age := 100, data := some sampleCommits }
      sampleCommits rfl (by decide) rfl,
    cache_hit_roundtrip.2 sampleEnvMiss 3600 rfl (by decide)⟩

/-! ### Diff-stat parsing isolation (C9) -/

theorem upsert_keys (acc : List (String × CurrentChange))
    (e : String × CurrentChange) :
    (upsert acc e).map Prod.fst = acc.map Prod.fst ∨
    (upsert acc e).map Prod.fst = acc.map Prod.fst ++ [e.1] := by
  unfold upsert
  split
  · left
    rw [List.map_map]
    apply List.map_congr_left
    intro x hx
    simp only [Function.comp]
    split <;> rfl
  · right
    simp

theorem mem_keys_upsert_self (acc : List (String × CurrentChange))
    (e : String × CurrentChange) :
    e.1 ∈ (upsert acc e).map Prod.fst := by
  unfold upsert
  split
  · next hany =>
      obtain ⟨x, hx, hxe⟩ := List.any_eq_true.mp hany
      have hxe' : x.1 = e.1 := beq_iff_eq.mp hxe
      rw [List.map_map]
      apply List.mem_map.mpr
      refine ⟨x, hx, ?_⟩
      simp only [Function.comp]
      rw [if_pos hxe]
      exact hxe'
  · simp

theorem mem_keys_upsert_mono (acc : List (String × CurrentChange))
    (e : String × CurrentChange) (f : String) (h : f ∈ acc.map Prod.fst) :
    f ∈ (upsert acc e).map Prod.fst := by
  rcases upsert_keys acc e with heq | heq <;> rw [heq]
  · exact h
  · exact List.mem_append_left _ h

theorem key_mono_fold (lines : List String) :
    ∀ (acc : List (String × CurrentChange)) (f : String),
      f ∈ acc.map Prod.fst →
      f ∈ (lines.foldl diffStep acc).map Prod.fst := by
  induction lines with
  | nil => exact fun acc f h => h
  | cons l ls ih =>
      intro acc f h
      rw [List.foldl_cons]
      cases hl : parseDiffLine l with
      | none =>
          rw [show diffStep acc l = acc from by rw [diffStep, hl]]
          exact ih acc f h
      | some e =>
          rw [show diffStep acc l = upsert acc e from by rw [diffStep, hl]]
          exact ih _ f (mem_keys_upsert_mono acc e f h)

theorem key_after_fold (lines : List String) :
    ∀ (acc : List (String × CurrentChange)) (line : String)
      (e : String × CurrentChange), line ∈ lines → parseDiffLine line = some e →
      e.1 ∈ (lines.foldl diffStep acc).map Prod.fst := by
  induction lines with
  | nil => intro _ _ _ h; cases h
  | cons l ls ih =>
      intro acc line e hmem he
      rw [List.foldl_cons]
      rcases List.mem_cons.mp hmem with rfl | hmem'
      · rw [show diffStep acc line = upsert acc e from by rw [diffStep, he]]
        exact key_mono_fold ls _ e.1 (mem_keys_upsert_self acc e)
      · exact ih _ line e hmem' he

/-- C9 (amended): a malformed diff-stat line is never fatal; a line that is
blank, a summary line, or does not split into exactly two `|`-separated
parts contributes no entry, while a line whose filename parses but whose
change count does not contributes a zeroed entry flagged `error` under that
filename (the `except` branch); every line that parses keeps its filename
in the final mapping. -/
theorem diff_malformed_isolated :
    (∀ (pre post : List String) (bad : String), parseDiffLine bad = none →
      processDiffLines (pre ++ bad :: post) = processDiffLines (pre ++ post)) ∧
    (∀ (lines : List String) (line : String) (e : String × CurrentChange),
      line ∈ lines → parseDiffLine line = some e →
      e.1 ∈ (processDiffLines lines).map Prod.fst) ∧
    (∀ (line : String) (f : String) (v : CurrentChange),
      parseDiffLine line = some (f, v) → v.error = true →
      v = { additions := 0, deletions := 0, total := 0, error := true }) := by
  refine ⟨?_, ?_, ?_⟩
  · intro pre post bad hbad
    unfold processDiffLines
    rw [List.foldl_append, List.foldl_cons,
      show diffStep (pre.foldl diffStep []) bad = pre.foldl diffStep [] from by
        rw [diffStep, hbad],
      ← List.foldl_append]
  · intro lines line e hmem he
    exact key_after_fold lines [] line e hmem he
  · intro line f v h herr
    simp only [parseDiffLine] at h
    split at h
    · exact absurd h (by simp)
    · split at h
      · exact absurd h (by simp)
      · split at h
        · split at h
          · injection h with h2
            injection h2 with hfst hsnd
            rw [← hsnd] at herr
            exact absurd herr (by simp)
          · split at h
            · injection h with h2
              injection h2 with hfst hsnd
              exact hsnd.symm
            · split at h
              · injection h with h2
                injection h2 with hfst hsnd
                rw [← hsnd] at herr
                exact absurd herr (by simp)
              · injection h with h2
                injection h2 with hfst hsnd
                rw [← hsnd] at herr
                exact absurd herr (by simp)
        · exact absurd h (by simp)

/-- Witness for `diff_malformed_isolated`: a summary line is skipped, a
non-numeric stats field leaves an error entry for its filename, and the
well-formed lines still parse. -/
theorem diff_malformed_isolated_witness :
    (processDiffLines (["a.py | 3 ++-"] ++ " 3 files changed, 5 insertions" :: ["b.py | 2 +-"]) =
      processDiffLines (["a.py | 3 ++-"] ++ ["b.py | 2 +-"])) ∧
    ("foo.py" : String) ∈
      (processDiffLines ["a.py | 3 ++-", "foo.py | xyz"]).map Prod.fst ∧
    ({ additions := 0, deletions := 0, total := 0, error := true } : CurrentChange) =
      { additions := 0, deletions := 0, total := 0, error := true } :=
  ⟨diff_malformed_isolated.1 ["a.py | 3 ++-"] ["b.py | 2 +-"]
      " 3 files changed, 5 insertions" (by decide),
    diff_malformed_isolated.2.1 ["a.py | 3 ++-", "foo.py | xyz"] "foo.py | xyz"
      ("foo.py", { additions := 0, deletions := 0, total := 0, error := true })
      (by decide) (by decide),
    diff_malformed_isolated.2.2 "foo.py | xyz" "foo.py"
      { additions := 0, deletions := 0, total := 0, error := true }
      (by decide) (by decide)⟩

/-- C9 counterexample: the claim says a malformed line contributes no entry
to the returned mapping, but the line `"foo.py | xyz"` (stats field not an
integer) contributes an error-flagged zero entry for `foo.py` via the
`except` branch, while the well-formed lines around it still parse. -/
theorem diff_malformed_counterexample :
    (getCurrentChanges "a.py | 3 ++-\nfoo.py | xyz\nb.py | 2 +-").lookup "foo.py" =
      some { additions := 0, deletions := 0, total := 0, error := true } ∧
    (getCurrentChanges "a.py | 3 ++-\nfoo.py | xyz\nb.py | 2 +-").lookup "a.py" =
      some { additions := 2, deletions := 1, total := 3, error := false } ∧
    (getCurrentChanges "a.py | 3 ++-\nfoo.py | xyz\nb.py | 2 +-").lookup "b.py" =
      some { additions := 1, deletions := 1, total := 2, error := false } := by
  exact ⟨by decide, by decide, by decide⟩

/-! ### Empty-history degradation (C7) -/

/-- C7: on the empty commit history every computator's `calculate` returns
its empty (or zero-defaulted) result, on an empty current-changes map every
`analyze_impact` returns an empty per-file impact, and the division guards
return 0 for a zero Jaccard union and a zero entropy normalizer. -/
theorem empty_history_degrades :
    codeChurnCalculate [] = [] ∧
    changeCouplingCalculate [] = { coupling := [], fileChanges := [] } ∧
    (∀ log2 : ℚ → ℚ, changeEntropyCalculate log2 [] = []) ∧
    developerOwnershipCalculate [] = [] ∧
    hotspotCalculate [] = [] ∧
    knowledgeCalculate [] = (⟨0, 0, [], [], 0, 0⟩ : TeamMetrics) ∧
    (∀ mr, codeChurnImpact [] mr = []) ∧
    (∀ mr, changeCouplingImpact [] mr = []) ∧
    (∀ mr, changeEntropyImpact [] mr = []) ∧
    (∀ mr, developerOwnershipImpact [] mr = []) ∧
    (∀ mr, hotspotImpact [] mr = []) ∧
    (∀ tm, (knowledgeImpact [] tm).fileMetrics = []) ∧
    (∀ cnt : Nat, jaccardOf cnt 0 = 0) ∧
    (∀ e : ℚ, normalizedEntropy e 0 = 0) := by
  refine ⟨rfl, rfl, fun _ => rfl, rfl, rfl, rfl, fun _ => rfl, fun _ => rfl,
    fun _ => rfl, fun _ => rfl, fun _ => rfl, fun _ => rfl,
    fun cnt => ?_, fun e => ?_⟩
  · simp [jaccardOf]
  · simp [normalizedEntropy]

end GitMetrics
